import Mathlib

/-!
# CrazyAra: search thread and training-data exporter

A shallow embedding of `engine/src/rl/traindataexporter.cpp` and
`engine/src/searchthread.cpp`, followed by the properties proved about them.

Conventions of the embedding:
* `size_t` counters and indices are natural numbers, `int16_t` / `int32_t` cells are
  integers: sample counts, ply counts and game results stay far below the machine bounds;
* `float` values are rationals (exact arithmetic);
* a dataset of the chunked store is a list of cells, `none` marking a cell that was never
  written; a region write stores the cells that lie inside the dataset.
-/

namespace CrazyAra

/-! ## Training-data exporter (`traindataexporter.cpp`) -/

/-- Modelled from the spec: the constant `DRAW` is declared outside the translated sources;
the spec gives the value column of a drawn game as `[0,…,0]`. -/
def DRAW : Int := 0

/-- Modelled from the spec: the constant `WIN` is declared outside the translated sources;
the spec's overflow scenario writes `[1, -1, 1, 1]` for result `WIN`. -/
def WIN : Int := 1

/-- Colour of the side to move (`WHITE` / `BLACK`). -/
inductive Color where
  | WHITE
  | BLACK
deriving DecidableEq, Repr

/-- Hash key of a position. -/
abbrev Key := Nat

/-- Moves are represented by their integer encoding. -/
abbrev Move := Nat

/-- The fields of `StateInfo` read by the search. -/
structure StateInfo where
  pliesFromNull : Nat
  repetition : Int
deriving DecidableEq

/-- A `Board`: the position itself is an uninterpreted code (the board representation and
the move generator are external), together with what the accessors `hash_key`,
`side_to_move`, `get_state_info` and `number_repetitions` return for it. -/
structure Board where
  position : Nat
  hashKey : Key
  sideToMove : Color
  stateInfo : StateInfo
  numberRepetitions : Nat
deriving DecidableEq

/-- The fields of `EvalInfo` read by the exporter. -/
structure EvalInfo where
  legalMoves : List Move
  policyProbSmall : List ℚ
  bestMoveQ : ℚ
deriving DecidableEq

/-- Constants, tables and helpers the exporter uses but that are declared elsewhere:
`NB_LABELS`, `MV_LOOKUP_CLASSIC`, `MV_LOOKUP_MIRRORED_CLASSIC`, and `board_to_planes`
(its arguments are the position, the repetition count and the normalisation flag; the
result is given after the cast of every entry to `int16_t`). -/
structure ExportTables where
  NB_LABELS : Nat
  MV_LOOKUP_CLASSIC : Move → Nat
  MV_LOOKUP_MIRRORED_CLASSIC : Move → Nat
  board_to_planes : Board → Nat → Bool → List Int

/-- Region write `z5::multiarray::writeSubarray` along the first axis: row `k` of `arr`
goes to cell `off + k` of the dataset. -/
def writeSubarray {α : Type} : List (Option α) → List α → Nat → List (Option α)
  | ds, [], _ => ds
  | ds, v :: vs, off => writeSubarray (ds.set off (some v)) vs (off + 1)

/-- State of a `TrainDataExporter`: the members of the class, with the five datasets of
the file as lists of cells. -/
structure TrainDataExporter where
  numberChunks : Nat
  chunkSize : Nat
  numberSamples : Nat
  firstMove : Bool
  gameIdx : Nat
  startIdx : Nat
  gameX : List (List Int)
  gamePolicy : List (List ℚ)
  gameBestMoveQ : List ℚ
  dStartIndex : List (Option Int)
  dx : List (Option (List Int))
  dValue : List (Option Int)
  dPolicy : List (Option (List ℚ))
  dbestMoveQ : List (Option ℚ)
deriving DecidableEq

namespace TrainDataExporter

/-- Function `save_planes` (traindataexporter.cpp, lines 134-153): the planes of the position
form a one-row array; on the first move it becomes `gameX`, otherwise
`xt::concatenate(xtuple(gameX, planes))` is evaluated and its result is not stored, so `gameX`
keeps its value. -/
def save_planes (t : ExportTables) (e : TrainDataExporter) (pos : Board) (_idxOffset : Nat) :
    TrainDataExporter :=
  let planes : List (List Int) := [t.board_to_planes pos pos.numberRepetitions false]
  if e.firstMove then
    { e with gameX := planes }
  else
    let _concatenated := e.gameX ++ planes
    e

/-- The loop of `save_policy` that fills the one-row policy array. -/
def fillPolicy (t : ExportTables) (sideToMove : Color) :
    List Move → List ℚ → List ℚ → List ℚ
  | mv :: mvs, p :: ps, policy =>
      let policyIdx := if sideToMove = Color.WHITE then t.MV_LOOKUP_CLASSIC mv
                       else t.MV_LOOKUP_MIRRORED_CLASSIC mv
      fillPolicy t sideToMove mvs ps (policy.set policyIdx p)
  | _, _, policy => policy

/-- Function `save_policy` (traindataexporter.cpp, lines 155-180): same storing discipline as
`save_planes`. -/
def save_policy (t : ExportTables) (e : TrainDataExporter) (legalMoves : List Move)
    (policyProbSmall : List ℚ) (sideToMove : Color) (_idxOffset : Nat) : TrainDataExporter :=
  let policy : List (List ℚ) :=
    [fillPolicy t sideToMove legalMoves policyProbSmall (List.replicate t.NB_LABELS 0)]
  if e.firstMove then
    { e with gamePolicy := policy }
  else
    let _concatenated := e.gamePolicy ++ policy
    e

/-- Function `save_best_move_q` (traindataexporter.cpp, lines 44-60): guarded like
`save_sample`, then the same storing discipline. -/
def save_best_move_q (e : TrainDataExporter) (eval : EvalInfo) (idxOffset : Nat) :
    TrainDataExporter :=
  if e.startIdx + idxOffset ≥ e.numberSamples then
    e
  else
    let qArray : List ℚ := [eval.bestMoveQ]
    if e.firstMove then
      { e with gameBestMoveQ := qArray }
    else
      let _concatenated := e.gameBestMoveQ ++ qArray
      e

/-- Function `save_sample` (traindataexporter.cpp, lines 31-42). -/
def save_sample (t : ExportTables) (e : TrainDataExporter) (pos : Board) (eval : EvalInfo)
    (idxOffset : Nat) : TrainDataExporter :=
  if e.startIdx + idxOffset ≥ e.numberSamples then
    e
  else
    let e1 := save_planes t e pos idxOffset
    let e2 := save_policy t e1 eval.legalMoves eval.policyProbSmall pos.sideToMove idxOffset
    let e3 := save_best_move_q e2 eval idxOffset
    { e3 with firstMove := false }

/-- Function `new_game` (traindataexporter.cpp, lines 129-132). -/
def new_game (e : TrainDataExporter) : TrainDataExporter :=
  { e with firstMove := true }

/-- The loop `for (idx = 1; idx < plys; idx += 2) valueArray[idx] = -result`, with the
number of remaining iterations bounded by `fuel`. -/
def invertLoop (result : Int) (plys : Nat) : Nat → Nat → List Int → List Int
  | 0, _, arr => arr
  | fuel + 1, idx, arr =>
      if idx < plys then invertLoop result plys fuel (idx + 2) (arr.set idx (-result))
      else arr

/-- The array `valueArray` built by `export_game_samples` for `plys` plies. -/
def valueArray (result : Int) (plys : Nat) : List Int :=
  let arr := List.replicate plys result
  if result ≠ DRAW then invertLoop result plys plys 1 arr else arr

/-- Function `save_start_idx` (traindataexporter.cpp, lines 182-189): writes `startIdx` into
`start_indices` at index `gameIdx`. -/
def save_start_idx (e : TrainDataExporter) : TrainDataExporter :=
  { e with dStartIndex := writeSubarray e.dStartIndex [(e.startIdx : Int)] e.gameIdx }

/-- The ply count after the adjustment at the top of `export_game_samples`. -/
def clampPlys (e : TrainDataExporter) (plys : Nat) : Nat :=
  if e.startIdx + plys > e.numberSamples then plys - (e.startIdx + plys - e.numberSamples)
  else plys

/-- Function `export_game_samples` (traindataexporter.cpp, lines 62-97). -/
def export_game_samples (e : TrainDataExporter) (result : Int) (plys : Nat) :
    TrainDataExporter :=
  if e.startIdx ≥ e.numberSamples then
    e
  else
    let plys := clampPlys e plys
    let e1 := { e with
      dx := writeSubarray e.dx e.gameX e.startIdx
      dValue := writeSubarray e.dValue (valueArray result plys) e.startIdx
      dbestMoveQ := writeSubarray e.dbestMoveQ e.gameBestMoveQ e.startIdx
      dPolicy := writeSubarray e.dPolicy e.gamePolicy e.startIdx }
    let e2 := { e1 with startIdx := e1.startIdx + plys }
    let e3 := { e2 with gameIdx := e2.gameIdx + 1 }
    save_start_idx e3

/-- Function `create_new_dataset_file` (traindataexporter.cpp, lines 200-216): five fresh
datasets with `numberSamples` cells along the first axis, then `save_start_idx`. -/
def create_new_dataset_file (e : TrainDataExporter) : TrainDataExporter :=
  save_start_idx { e with
    dStartIndex := List.replicate e.numberSamples none
    dx := List.replicate e.numberSamples none
    dValue := List.replicate e.numberSamples none
    dPolicy := List.replicate e.numberSamples none
    dbestMoveQ := List.replicate e.numberSamples none }

/-- The constructor, for a file that does not exist yet. -/
def create (numberChunks chunkSize : Nat) : TrainDataExporter :=
  create_new_dataset_file
    { numberChunks := numberChunks
      chunkSize := chunkSize
      numberSamples := numberChunks * chunkSize
      firstMove := true
      gameIdx := 0
      startIdx := 0
      gameX := []
      gamePolicy := []
      gameBestMoveQ := []
      dStartIndex := []
      dx := []
      dValue := []
      dPolicy := []
      dbestMoveQ := [] }

/-- Function `is_file_full` (traindataexporter.cpp, lines 124-127). -/
def is_file_full (e : TrainDataExporter) : Bool :=
  decide (e.startIdx ≥ e.numberSamples)

/-- Exports a sequence of games, given as (result, plies) pairs, in order. -/
def exportGames (e : TrainDataExporter) : List (Int × Nat) → TrainDataExporter
  | [] => e
  | (r, p) :: gs => exportGames (export_game_samples e r p) gs

/-- A sequence of `save_sample` calls, given as (position, evaluation, offset) triples. -/
def saveSamples (t : ExportTables) (e : TrainDataExporter) :
    List (Board × EvalInfo × Nat) → TrainDataExporter
  | [] => e
  | (pos, ev, off) :: ss => saveSamples t (save_sample t e pos ev off) ss

end TrainDataExporter

/-! ## Search tree (`Node`) -/

/-! Nodes live in a heap and are referred to by their address, a natural number; a pointer
to a node is an `Option Nat`, the null pointer being `none`. -/

/-- The members of `SearchSettings` read by the search thread. -/
structure SearchSettings where
  batchSize : Nat
  virtualLoss : ℚ
  useTranspositionTable : Bool
  nodePolicyTemperature : ℚ

/-- Modelled from the spec: the class `Node` of the engine is declared outside the translated
sources; the fields are the attributes of the spec's data model that the search thread reads
or writes through the accessors it calls. `transpositionChild` marks the slots filled by
`add_transposition_child_node`. -/
structure Node where
  key : Key
  pliesFromNull : Nat
  value : ℚ
  isTerminal : Bool
  isTablebase : Bool
  hasNNResults : Bool
  legalMoves : List Move
  policyProbSmall : List ℚ
  childNumberVisits : List ℚ
  actionValues : List ℚ
  qValues : List ℚ
  childNodes : List (Option Nat)
  transpositionChild : List Bool
  noVisitIdx : Nat
  parentNode : Option Nat
  childIdxForParent : Nat

namespace Node

/-- Method `get_child_node`. -/
def get_child_node (nd : Node) (childIdx : Nat) : Option Nat :=
  nd.childNodes.getD childIdx none

/-- Method `get_move`. -/
def get_move (nd : Node) (childIdx : Nat) : Move :=
  nd.legalMoves.getD childIdx 0

/-- Modelled from the spec: `apply_virtual_loss(i, vloss)`: `visit_count[i] += vloss`;
`action_value[i] -= vloss`; recomputes `q_value[i]`. -/
def apply_virtual_loss_to_child (nd : Node) (childIdx : Nat) (virtualLoss : ℚ) : Node :=
  let visits := nd.childNumberVisits.getD childIdx 0 + virtualLoss
  let action := nd.actionValues.getD childIdx 0 - virtualLoss
  { nd with
    childNumberVisits := nd.childNumberVisits.set childIdx visits
    actionValues := nd.actionValues.set childIdx action
    qValues := nd.qValues.set childIdx (action / visits) }

/-- Modelled from the spec: the update `backup_value(i, vloss, v)` makes on one node:
`visit_count[i] += 1 - vloss`; `action_value[i] += v + vloss`;
`q_value[i] = action_value[i] / visit_count[i]`. -/
def revert_virtual_loss_and_update (nd : Node) (childIdx : Nat) (virtualLoss value : ℚ) : Node :=
  let visits := nd.childNumberVisits.getD childIdx 0 + (1 - virtualLoss)
  let action := nd.actionValues.getD childIdx 0 + (value + virtualLoss)
  { nd with
    childNumberVisits := nd.childNumberVisits.set childIdx visits
    actionValues := nd.actionValues.set childIdx action
    qValues := nd.qValues.set childIdx (action / visits) }

/-- Modelled from the spec: `add_new_child(i, node)` installs a child pointer. -/
def add_new_child_node (nd : Node) (newNode : Nat) (childIdx : Nat) : Node :=
  { nd with childNodes := nd.childNodes.set childIdx (some newNode) }

/-- Modelled from the spec: `add_transposition_child(i, node)` installs a child pointer and
marks the slot. -/
def add_transposition_child_node (nd : Node) (newNode : Nat) (childIdx : Nat) : Node :=
  { nd with
    childNodes := nd.childNodes.set childIdx (some newNode)
    transpositionChild := nd.transpositionChild.set childIdx true }

/-- Modelled from the spec: `increment_no_visit_idx()` exposes one more child to
subsequent selection. -/
def increment_no_visit_idx (nd : Node) : Node :=
  { nd with noVisitIdx := nd.noVisitIdx + 1 }

/-- Modelled from the spec: `enable_has_nn_results()` sets the gate. -/
def enable_has_nn_results (nd : Node) : Node :=
  { nd with hasNNResults := true }

/-- Method `set_value`. -/
def set_value (nd : Node) (v : ℚ) : Node :=
  { nd with value := v }

/-- Modelled from the spec: `set_probabilities_for_moves(nn_policy, side_lookup)` gathers the
NN policy at the indices produced by the move lookup, writing `prior_policy[i]` for each
legal move `i`. -/
def set_probabilities_for_moves (nd : Node) (policy : List ℚ) (lookup : Move → Nat) : Node :=
  { nd with policyProbSmall := nd.legalMoves.map (fun mv => policy.getD (lookup mv) 0) }

end Node

/-! ## Search thread (`searchthread.cpp`) -/

/-- Modelled from the spec: `FixedVector`, a fixed-capacity ordered sequence: the elements
added since the last reset, in order, and the capacity given at construction. -/
structure FixedVector (α : Type) where
  capacity : Nat
  data : List α

namespace FixedVector

/-- Method `add_element`. -/
def add_element {α : Type} (v : FixedVector α) (x : α) : FixedVector α :=
  { v with data := v.data ++ [x] }

/-- Method `size`. -/
def size {α : Type} (v : FixedVector α) : Nat := v.data.length

/-- Method `is_full`. -/
def is_full {α : Type} (v : FixedVector α) : Bool := v.size == v.capacity

end FixedVector

/-- Structure `NodeDescription`. -/
structure NodeDescription where
  depth : Nat
  isCollision : Bool
  isTerminal : Bool
deriving DecidableEq

/-- One operation on the virtual loss of child slot `i` of node `n`: an application
(`apply_virtual_loss_to_child`) or a revert (inside `backup_value` or `backup_collision`). -/
inductive VLEvent where
  | apply (n : Nat) (i : Nat)
  | revert (n : Nat) (i : Nat)
deriving DecidableEq

/-- What the search thread uses from outside the translated sources: the constant
`TERMINAL_NODE_CACHE`, the board operations `do_move` and `gives_check`,
`board_to_planes`, the selection rule `select_child_node`, the part of the `Node`
constructor that depends on the position (`node_of_position`), the prior policies that the
post-processing steps `apply_softmax_to_policy`, `enhance_moves` and
`apply_temperature_to_prior_policy` compute, the move lookup of a side, the slicing of the
policy output, and the network (`predict`, `is_policy_map`). -/
structure SearchEnv where
  TERMINAL_NODE_CACHE : Nat
  do_move : Board → Move → Board
  gives_check : Board → Move → Bool
  board_to_planes : Board → Nat → Bool → List ℚ
  select_child_node : Node → SearchSettings → Nat
  node_of_position : Board → Bool → SearchSettings → Node
  softmax : List ℚ → List ℚ
  enhanced_policy : Node → SearchSettings → List ℚ
  temperature_policy : List ℚ → ℚ → List ℚ
  get_current_move_lookup : Color → Move → Nat
  get_policy_data_batch : Nat → List ℚ → Bool → List ℚ
  predict : List (List ℚ) → List ℚ × List ℚ
  is_policy_map : Bool

/-- Modelled from the spec: post-processing step 1, softmax over the legal moves. -/
def Node.apply_softmax_to_policy (env : SearchEnv) (nd : Node) : Node :=
  { nd with policyProbSmall := env.softmax nd.policyProbSmall }

/-- Modelled from the spec: post-processing step 2, rule-based boosts of the prior policy. -/
def Node.enhance_moves (env : SearchEnv) (nd : Node) (settings : SearchSettings) : Node :=
  { nd with policyProbSmall := env.enhanced_policy nd settings }

/-- Modelled from the spec: post-processing step 3, temperature on the prior policy. -/
def Node.apply_temperature_to_prior_policy (env : SearchEnv) (nd : Node) (temperature : ℚ) :
    Node :=
  { nd with policyProbSmall := env.temperature_policy nd.policyProbSmall temperature }

/-- Modelled from the spec: the constructor `Node(pos, inCheck, parentNode, childIdx,
searchSettings)`: a node for the position with its back-link set, no child yet and the
NN-result gate closed. -/
def Node.create (env : SearchEnv) (pos : Board) (inCheck : Bool) (parentNode : Nat)
    (childIdx : Nat) (settings : SearchSettings) : Node :=
  let nd := env.node_of_position pos inCheck settings
  { nd with
    childNodes := List.replicate nd.legalMoves.length none
    transpositionChild := List.replicate nd.legalMoves.length false
    hasNNResults := false
    parentNode := some parentNode
    childIdxForParent := childIdx }

/-- State of a search thread together with the state it shares: the node heap (`nodes`, with
`nbNodes` addresses handed out so far), the transposition map `mapWithMutex->hashTable` as
an association list, and the members of `SearchThread`. `vlLog` is a history variable,
not a member: it records the virtual-loss operations in the order they are made. Locks are
not modelled (one worker). -/
structure SearchThread where
  nodes : Nat → Node
  nbNodes : Nat
  hashTable : List (Key × Nat)
  rootNode : Nat
  rootPos : Board
  inputPlanes : List (List ℚ)
  valueOutputs : List ℚ
  probOutputs : List ℚ
  newNodes : FixedVector Nat
  newNodeSideToMove : FixedVector Color
  transpositionNodes : FixedVector Nat
  collisionNodes : FixedVector (Option Nat)
  tbHits : Nat
  isRunning : Bool
  vlLog : List VLEvent

namespace SearchThread

/-- Constructor `SearchThread::SearchThread` (searchthread.cpp, lines 38-57): the four buffers
are allocated empty, `newNodes`, `newNodeSideToMove` and `collisionNodes` with capacity
`batchSize`, `transpositionNodes` with capacity `batchSize * 2`, and `isRunning` is false.
The shared state, the members that the constructor leaves to their setters and the contents
of the freshly allocated arrays are arguments. -/
def create (settings : SearchSettings) (nodes : Nat → Node) (nbNodes : Nat)
    (hashTable : List (Key × Nat)) (rootNode : Nat) (rootPos : Board)
    (inputPlanes : List (List ℚ)) (valueOutputs probOutputs : List ℚ) (tbHits : Nat) :
    SearchThread :=
  { nodes := nodes
    nbNodes := nbNodes
    hashTable := hashTable
    rootNode := rootNode
    rootPos := rootPos
    inputPlanes := inputPlanes
    valueOutputs := valueOutputs
    probOutputs := probOutputs
    newNodes := { capacity := settings.batchSize, data := [] }
    newNodeSideToMove := { capacity := settings.batchSize, data := [] }
    transpositionNodes := { capacity := settings.batchSize * 2, data := [] }
    collisionNodes := { capacity := settings.batchSize, data := [] }
    tbHits := tbHits
    isRunning := false
    vlLog := [] }

/-- Replaces the node stored at address `n`. -/
def setNode (st : SearchThread) (n : Nat) (nd : Node) : SearchThread :=
  { st with nodes := Function.update st.nodes n nd }

/-- Map operation `hashTable.find(key)`. -/
def find (table : List (Key × Nat)) (key : Key) : Option Nat :=
  table.lookup key

/-- Function `apply_virtual_loss_to_child` on the node at address `n`. -/
def apply_virtual_loss_to_child (st : SearchThread) (n : Nat) (childIdx : Nat)
    (virtualLoss : ℚ) : SearchThread :=
  { st.setNode n ((st.nodes n).apply_virtual_loss_to_child childIdx virtualLoss) with
    vlLog := st.vlLog ++ [VLEvent.apply n childIdx] }

/-- Modelled from the spec: `Node::backup_value(childIdx, value, virtualLoss)`, parameters in
the order of its calls in `searchthread.cpp`. It backpropagates across all of the parents of
the node, the value flipped at every ply (the walk from parent to root of the spec's backup
pass), making the spec's single-slot update at each level. `none` when `fuel` levels do
not reach a node without parent. The class `Node` of the earlier prototype (`src/node.h`)
declares `backup_value(childIdx, virtualLoss, value)`; that class has none of the accessors
that `searchthread.cpp` calls (`get_value`, `is_terminal`, `has_nn_results`,
`get_parent_node`, `get_child_idx_for_parent`) and another constructor, so it is not the
declaration that these calls bind to, and both calls pass the negated value second and the
virtual loss third. -/
def backup_value : Nat → SearchThread → Nat → Nat → ℚ → ℚ → Option SearchThread
  | 0, _, _, _, _, _ => none
  | fuel + 1, st, n, childIdx, value, virtualLoss =>
      let nd := st.nodes n
      let updated := nd.revert_virtual_loss_and_update childIdx virtualLoss value
      let st1 := { st.setNode n updated with vlLog := st.vlLog ++ [VLEvent.revert n childIdx] }
      match nd.parentNode with
      | none => some st1
      | some p => backup_value fuel st1 p nd.childIdxForParent (-value) virtualLoss

/-- Function `is_transposition_verified` (searchthread.cpp, lines 325-329), for the map entry
pointing to node `it`. -/
def is_transposition_verified (st : SearchThread) (it : Nat) (stateInfo : StateInfo) : Bool :=
  (st.nodes it).hasNNResults &&
  decide ((st.nodes it).pliesFromNull = stateInfo.pliesFromNull) &&
  decide (stateInfo.repetition = 0)

/-- The first branch of `add_new_node_to_tree`. Modelled from the spec: the copy constructor
of `Node` clones the aliased node, and registering the clone as transposition child makes
its back-link name the new parent and slot. -/
def add_transposition_node (st : SearchThread) (it : Nat) (parentNode : Nat)
    (childIdx : Nat) : SearchThread :=
  let newNode := st.nbNodes
  let copy : Node :=
    { st.nodes it with parentNode := some parentNode, childIdxForParent := childIdx }
  let st1 := { st.setNode newNode copy with nbNodes := st.nbNodes + 1 }
  let st2 := st1.setNode parentNode
    ((st1.nodes parentNode).add_transposition_child_node newNode childIdx)
  let st3 := st2.setNode parentNode (st2.nodes parentNode).increment_no_visit_idx
  { st3 with transpositionNodes := st3.transpositionNodes.add_element newNode }

/-- The second branch of `add_new_node_to_tree`. -/
def add_fresh_node (env : SearchEnv) (settings : SearchSettings) (st : SearchThread)
    (newPos : Board) (parentNode : Nat) (childIdx : Nat) (inCheck : Bool) : SearchThread :=
  let st1 := st.setNode parentNode (st.nodes parentNode).increment_no_visit_idx
  let newNode := st1.nbNodes
  let created := Node.create env newPos inCheck parentNode childIdx settings
  let st2 := { st1.setNode newNode created with nbNodes := st1.nbNodes + 1 }
  let st3 := { st2 with
    inputPlanes := st2.inputPlanes.set st2.newNodes.size
      (env.board_to_planes newPos newPos.numberRepetitions true) }
  let st4 := st3.setNode parentNode ((st3.nodes parentNode).add_new_child_node newNode childIdx)
  let st5 := { st4 with newNodes := st4.newNodes.add_element newNode }
  { st5 with newNodeSideToMove := st5.newNodeSideToMove.add_element newPos.sideToMove }

/-- Function `SearchThread::add_new_node_to_tree` (searchthread.cpp, lines 92-120). -/
def add_new_node_to_tree (env : SearchEnv) (settings : SearchSettings) (st : SearchThread)
    (newPos : Board) (parentNode : Nat) (childIdx : Nat) (inCheck : Bool) : SearchThread :=
  match find st.hashTable newPos.hashKey with
  | some it =>
      if settings.useTranspositionTable && is_transposition_verified st it newPos.stateInfo then
        add_transposition_node st it parentNode childIdx
      else
        add_fresh_node env settings st newPos parentNode childIdx inCheck
  | none => add_fresh_node env settings st newPos parentNode childIdx inCheck

/-- What `get_new_child_to_evaluate` returns and leaves in its reference parameters. -/
structure Descent where
  st : SearchThread
  pos : Board
  parentNode : Nat
  childIdx : Nat
  description : NodeDescription
  inCheck : Bool
  states : Nat

/-- The `while (true)` loop of `get_new_child_to_evaluate`; `states` counts the entries of
the state list, and `none` means that `fuel` rounds did not reach a return. -/
def descend (env : SearchEnv) (settings : SearchSettings) :
    Nat → SearchThread → Board → Nat → NodeDescription → Bool → Nat → Option Descent
  | 0, _, _, _, _, _, _ => none
  | fuel + 1, st, pos, currentNode, description, inCheck, states =>
      let childIdx := env.select_child_node (st.nodes currentNode) settings
      let st1 := st.apply_virtual_loss_to_child currentNode childIdx settings.virtualLoss
      let nextNode := (st1.nodes currentNode).get_child_node childIdx
      let description := { description with depth := description.depth + 1 }
      let move := (st1.nodes currentNode).get_move childIdx
      match nextNode with
      | none =>
          some { st := st1, pos := env.do_move pos move, parentNode := currentNode,
                 childIdx := childIdx,
                 description := { description with isCollision := false, isTerminal := false },
                 inCheck := env.gives_check pos move, states := states }
      | some next =>
          if (st1.nodes next).isTerminal then
            some { st := st1, pos := env.do_move pos move, parentNode := currentNode,
                   childIdx := childIdx,
                   description := { description with isCollision := false, isTerminal := true },
                   inCheck := inCheck, states := states }
          else if !(st1.nodes next).hasNNResults then
            some { st := st1, pos := env.do_move pos move, parentNode := currentNode,
                   childIdx := childIdx,
                   description := { description with isCollision := true, isTerminal := false },
                   inCheck := inCheck, states := states }
          else
            descend env settings fuel st1 (env.do_move pos move) next description inCheck
              (states + 1)

/-- Function `get_new_child_to_evaluate` (searchthread.cpp, lines 137-178). The arguments
`description` and `inCheck` are the contents of the reference parameters at the call. -/
def get_new_child_to_evaluate (env : SearchEnv) (settings : SearchSettings) (fuel : Nat)
    (st : SearchThread) (pos : Board) (rootNode : Nat) (description : NodeDescription)
    (inCheck : Bool) : Option Descent :=
  descend env settings fuel st pos rootNode { description with depth := 0 } inCheck 0

/-- The test `node->get_parent_node() != nullptr && node->get_parent_node()->is_tablebase()`
of `node_assign_value`. -/
def parent_is_tablebase (st : SearchThread) (nd : Node) : Bool :=
  match nd.parentNode with
  | some p => (st.nodes p).isTablebase
  | none => false

/-- Function `node_assign_value` (searchthread.cpp, lines 302-314). -/
def node_assign_value (st : SearchThread) (node : Nat) (valueOutputs : List ℚ)
    (batchIdx : Nat) : SearchThread :=
  let nd := st.nodes node
  if !nd.isTablebase then
    st.setNode node (nd.set_value (valueOutputs.getD batchIdx 0))
  else
    let st1 := { st with tbHits := st.tbHits + 1 }
    if decide (nd.value ≠ 0) && parent_is_tablebase st1 nd then
      st1.setNode node (nd.set_value ((valueOutputs.getD batchIdx 0 + nd.value) * (1 / 2)))
    else
      st1

/-- Function `node_post_process_policy` (searchthread.cpp, lines 316-323). -/
def node_post_process_policy (env : SearchEnv) (st : SearchThread) (node : Nat)
    (temperature : ℚ) (isPolicyMap : Bool) (settings : SearchSettings) : SearchThread :=
  let st1 := if !isPolicyMap then st.setNode node ((st.nodes node).apply_softmax_to_policy env)
             else st
  let st2 := st1.setNode node ((st1.nodes node).enhance_moves env settings)
  st2.setNode node ((st2.nodes node).apply_temperature_to_prior_policy env temperature)

/-- Function `fill_nn_results` (searchthread.cpp, lines 195-201). -/
def fill_nn_results (env : SearchEnv) (st : SearchThread) (batchIdx : Nat) (is_policy_map : Bool)
    (valueOutputs probOutputs : List ℚ) (node : Nat) (sideToMove : Color)
    (settings : SearchSettings) : SearchThread :=
  let st1 := st.setNode node ((st.nodes node).set_probabilities_for_moves
    (env.get_policy_data_batch batchIdx probOutputs is_policy_map)
    (env.get_current_move_lookup sideToMove))
  let st2 := node_post_process_policy env st1 node settings.nodePolicyTemperature is_policy_map
    settings
  let st3 := node_assign_value st2 node valueOutputs batchIdx
  st3.setNode node (st3.nodes node).enable_has_nn_results

/-- The loop of `create_mini_batch`; `numTerminalNodes`, `description`, `inCheck` are its
local variables. -/
def create_mini_batch_loop (env : SearchEnv) (settings : SearchSettings) (fuel : Nat) :
    Nat → SearchThread → Nat → NodeDescription → Bool → Option SearchThread
  | 0, _, _, _, _ => none
  | rounds + 1, st, numTerminalNodes, description, inCheck =>
      if !st.newNodes.is_full && !st.collisionNodes.is_full &&
          !st.transpositionNodes.is_full && decide (numTerminalNodes < env.TERMINAL_NODE_CACHE) then
        match get_new_child_to_evaluate env settings fuel st st.rootPos st.rootNode description
            inCheck with
        | none => none
        | some d =>
            if d.description.isTerminal then
              match (d.st.nodes d.parentNode).get_child_node d.childIdx with
              | none => none
              | some child =>
                  match backup_value fuel d.st d.parentNode d.childIdx
                      (-(d.st.nodes child).value) settings.virtualLoss with
                  | none => none
                  | some st1 =>
                      create_mini_batch_loop env settings fuel rounds st1 (numTerminalNodes + 1)
                        d.description d.inCheck
            else if d.description.isCollision then
              let collision := (d.st.nodes d.parentNode).get_child_node d.childIdx
              create_mini_batch_loop env settings fuel rounds
                { d.st with collisionNodes := d.st.collisionNodes.add_element collision }
                numTerminalNodes d.description d.inCheck
            else
              create_mini_batch_loop env settings fuel rounds
                (add_new_node_to_tree env settings d.st d.pos d.parentNode d.childIdx d.inCheck)
                numTerminalNodes d.description d.inCheck
      else some st

/-- Function `SearchThread::create_mini_batch` (searchthread.cpp, lines 242-271). The initial
contents of the uninitialised locals `description` and `inCheck` are arguments. -/
def create_mini_batch (env : SearchEnv) (settings : SearchSettings) (fuel : Nat)
    (st : SearchThread) (description : NodeDescription) (inCheck : Bool) : Option SearchThread :=
  create_mini_batch_loop env settings fuel fuel st 0 description inCheck

/-- The condition of the `while` loop of `create_mini_batch` (searchthread.cpp, lines
250-253). -/
def create_mini_batch_continues (env : SearchEnv) (st : SearchThread) (numTerminalNodes : Nat) :
    Bool :=
  !st.newNodes.is_full && !st.collisionNodes.is_full &&
    !st.transpositionNodes.is_full && decide (numTerminalNodes < env.TERMINAL_NODE_CACHE)

/-- The body of the `while` loop of `create_mini_batch` (searchthread.cpp, lines 255-269): one
descent and the handling of its outcome. It returns the state, the terminal counter and the
locals `description` and `inCheck` at the end of the round. -/
def create_mini_batch_body (env : SearchEnv) (settings : SearchSettings) (fuel : Nat)
    (st : SearchThread) (numTerminalNodes : Nat) (description : NodeDescription)
    (inCheck : Bool) : Option (SearchThread × Nat × NodeDescription × Bool) :=
  match get_new_child_to_evaluate env settings fuel st st.rootPos st.rootNode description
      inCheck with
  | none => none
  | some d =>
      if d.description.isTerminal then
        match (d.st.nodes d.parentNode).get_child_node d.childIdx with
        | none => none
        | some child =>
            match backup_value fuel d.st d.parentNode d.childIdx
                (-(d.st.nodes child).value) settings.virtualLoss with
            | none => none
            | some st1 => some (st1, numTerminalNodes + 1, d.description, d.inCheck)
      else if d.description.isCollision then
        let collision := (d.st.nodes d.parentNode).get_child_node d.childIdx
        some ({ d.st with collisionNodes := d.st.collisionNodes.add_element collision },
          numTerminalNodes, d.description, d.inCheck)
      else
        some (add_new_node_to_tree env settings d.st d.pos d.parentNode d.childIdx d.inCheck,
          numTerminalNodes, d.description, d.inCheck)

end SearchThread

/-! ## Predicates used in the statements -/

namespace SearchThread

/-- Two thread states whose trees have the same shape: the same children, back-links,
classification flags and values at every address. Only statistics may differ. -/
def SameTree (a b : SearchThread) : Prop :=
  ∀ n, (a.nodes n).childNodes = (b.nodes n).childNodes ∧
    (a.nodes n).isTerminal = (b.nodes n).isTerminal ∧
    (a.nodes n).hasNNResults = (b.nodes n).hasNNResults ∧
    (a.nodes n).parentNode = (b.nodes n).parentNode ∧
    (a.nodes n).childIdxForParent = (b.nodes n).childIdxForParent ∧
    (a.nodes n).value = (b.nodes n).value

/-- The step relation of a descent: slot `b` belongs to the child that slot `a` points to, and
that child is not terminal and has NN results. -/
def DescentStep (st : SearchThread) (a b : Nat × Nat) : Prop :=
  (st.nodes a.1).get_child_node a.2 = some b.1 ∧ (st.nodes b.1).isTerminal = false ∧
    (st.nodes b.1).hasNNResults = true

/-- The descriptor classifies child `childIdx` of `parentNode` exactly. -/
def Classified (d : Descent) : Prop :=
  ((d.description.isCollision = false ∧ d.description.isTerminal = false) ↔
    (d.st.nodes d.parentNode).get_child_node d.childIdx = none) ∧
  ((d.description.isCollision = false ∧ d.description.isTerminal = true) ↔
    ∃ c, (d.st.nodes d.parentNode).get_child_node d.childIdx = some c ∧
      (d.st.nodes c).isTerminal = true) ∧
  ((d.description.isCollision = true ∧ d.description.isTerminal = false) ↔
    ∃ c, (d.st.nodes d.parentNode).get_child_node d.childIdx = some c ∧
      (d.st.nodes c).isTerminal = false ∧ (d.st.nodes c).hasNNResults = false) ∧
  ¬ (d.description.isCollision = true ∧ d.description.isTerminal = true)

/-- The later state has at least the addresses of the earlier one, and the back-links of the
addresses of the earlier state are unchanged. -/
def Grows (a b : SearchThread) : Prop :=
  a.nbNodes ≤ b.nbNodes ∧ b.rootNode = a.rootNode ∧
  ∀ n, n < a.nbNodes → (b.nodes n).parentNode = (a.nodes n).parentNode ∧
    (b.nodes n).childIdxForParent = (a.nodes n).childIdxForParent

/-- The two states have the same addresses, root, buffers and links; only statistics,
values, policies and the NN gate may differ. -/
def SameLinks (a b : SearchThread) : Prop :=
  b.nbNodes = a.nbNodes ∧ b.rootNode = a.rootNode ∧
  b.newNodes = a.newNodes ∧ b.transpositionNodes = a.transpositionNodes ∧
  b.collisionNodes = a.collisionNodes ∧
  ∀ n, (b.nodes n).childNodes = (a.nodes n).childNodes ∧
    (b.nodes n).parentNode = (a.nodes n).parentNode ∧
    (b.nodes n).childIdxForParent = (a.nodes n).childIdxForParent

/-- The slots met on the way up from slot `i` of node `n` along the back-links, at most
`fuel` of them: `(n, i)`, then the slot of `n` in its parent, and so on to the root. -/
def up_slots : Nat → SearchThread → Nat → Nat → List (Nat × Nat)
  | 0, _, _, _ => []
  | fuel + 1, st, n, i =>
      (n, i) :: (match (st.nodes n).parentNode with
                 | none => []
                 | some q => up_slots fuel st q (st.nodes n).childIdxForParent)

/-- The buffers have the capacities that the constructor gives them. -/
def ConstructedCapacities (settings : SearchSettings) (st : SearchThread) : Prop :=
  st.newNodes.capacity = settings.batchSize ∧
  st.newNodeSideToMove.capacity = settings.batchSize ∧
  st.transpositionNodes.capacity = settings.batchSize * 2 ∧
  st.collisionNodes.capacity = settings.batchSize

/-- The buffer bounds: no buffer holds more elements than the batch size allows it, and
`newNodes` and `newNodeSideToMove` hold equally many. -/
def BuffersWithin (settings : SearchSettings) (st : SearchThread) : Prop :=
  st.newNodes.size ≤ settings.batchSize ∧
  st.collisionNodes.size ≤ settings.batchSize ∧
  st.transpositionNodes.size ≤ 2 * settings.batchSize ∧
  st.newNodes.size = st.newNodeSideToMove.size

/-- One round of the loop of `create_mini_batch`, seen on the pair of the state and the
terminal counter: the loop condition holds at `a`, and the body run from `a` (with some
contents of the locals) ends in `b`. -/
def LoopStep (env : SearchEnv) (settings : SearchSettings) (fuel : Nat)
    (a b : SearchThread × Nat) : Prop :=
  create_mini_batch_continues env a.1 a.2 = true ∧
  ∃ description inCheck description2 inCheck2,
    create_mini_batch_body env settings fuel a.1 a.2 description inCheck =
      some (b.1, b.2, description2, inCheck2)

/-- The states that the loop of `create_mini_batch` passes through when it is entered in
state `st`: the pairs reached from `(st, 0)` by rounds of the loop. -/
def LoopReaches (env : SearchEnv) (settings : SearchSettings) (fuel : Nat) (st : SearchThread)
    (b : SearchThread × Nat) : Prop :=
  Relation.ReflTransGen (LoopStep env settings fuel) (st, 0) b

/-- What one round of the loop changes in the buffers and the terminal counter: either the
counter grows by one and no buffer changes, or the counter stays and exactly one element is
appended to exactly one of `collisionNodes`, `transpositionNodes` and `newNodes`, in the last
case together with one element of `newNodeSideToMove`. The buffer that grows was not full,
and no capacity changes. -/
def OneOutcome (a b : SearchThread × Nat) : Prop :=
  (b.1.newNodes.capacity = a.1.newNodes.capacity ∧
    b.1.newNodeSideToMove.capacity = a.1.newNodeSideToMove.capacity ∧
    b.1.transpositionNodes.capacity = a.1.transpositionNodes.capacity ∧
    b.1.collisionNodes.capacity = a.1.collisionNodes.capacity) ∧
  ((b.2 = a.2 + 1 ∧ b.1.newNodes.data = a.1.newNodes.data ∧
      b.1.newNodeSideToMove.data = a.1.newNodeSideToMove.data ∧
      b.1.transpositionNodes.data = a.1.transpositionNodes.data ∧
      b.1.collisionNodes.data = a.1.collisionNodes.data) ∨
   (b.2 = a.2 ∧ b.1.newNodes.data = a.1.newNodes.data ∧
      b.1.newNodeSideToMove.data = a.1.newNodeSideToMove.data ∧
      b.1.transpositionNodes.data = a.1.transpositionNodes.data ∧
      (∃ x, b.1.collisionNodes.data = a.1.collisionNodes.data ++ [x]) ∧
      a.1.collisionNodes.size < a.1.collisionNodes.capacity) ∨
   (b.2 = a.2 ∧ b.1.newNodes.data = a.1.newNodes.data ∧
      b.1.newNodeSideToMove.data = a.1.newNodeSideToMove.data ∧
      (∃ x, b.1.transpositionNodes.data = a.1.transpositionNodes.data ++ [x]) ∧
      b.1.collisionNodes.data = a.1.collisionNodes.data ∧
      a.1.transpositionNodes.size < a.1.transpositionNodes.capacity) ∨
   (b.2 = a.2 ∧ (∃ x, b.1.newNodes.data = a.1.newNodes.data ++ [x]) ∧
      (∃ c, b.1.newNodeSideToMove.data = a.1.newNodeSideToMove.data ++ [c]) ∧
      b.1.transpositionNodes.data = a.1.transpositionNodes.data ∧
      b.1.collisionNodes.data = a.1.collisionNodes.data ∧
      a.1.newNodes.size < a.1.newNodes.capacity ∧
      a.1.newNodeSideToMove.size < a.1.newNodeSideToMove.capacity))

end SearchThread

/-! ## Example data -/

namespace Example

/-- A position reached by the moves whose codes are the digits of `position`. -/
def board (position : Nat) : Board :=
  { position := position, hashKey := position, sideToMove := Color.WHITE,
    stateInfo := { pliesFromNull := 0, repetition := 0 }, numberRepetitions := 0 }

/-- A node with one legal move, no child and no statistics yet. -/
def leaf (key : Key) (parent : Option Nat) : Node :=
  { key := key, pliesFromNull := 0, value := 0, isTerminal := false, isTablebase := false,
    hasNNResults := false, legalMoves := [0], policyProbSmall := [1],
    childNumberVisits := [0], actionValues := [0], qValues := [0],
    childNodes := [none], transpositionChild := [false], noVisitIdx := 0,
    parentNode := parent, childIdxForParent := 0 }

/-- An environment whose selection rule always picks child 0 and whose network values
every position at 1/2. -/
def env : SearchEnv :=
  { TERMINAL_NODE_CACHE := 1
    do_move := fun b m => board (10 * b.position + m + 1)
    gives_check := fun _ _ => false
    board_to_planes := fun _ _ _ => []
    select_child_node := fun _ _ => 0
    node_of_position := fun pos _ _ => leaf pos.hashKey none
    softmax := fun policy => policy
    enhanced_policy := fun nd _ => nd.policyProbSmall
    temperature_policy := fun policy _ => policy
    get_current_move_lookup := fun _ mv => mv
    get_policy_data_batch := fun _ probs _ => probs
    predict := fun planes => (planes.map (fun _ => 1 / 2), [1])
    is_policy_map := true }

/-- Settings with batch size 2 and virtual loss 1. -/
def settings : SearchSettings :=
  { batchSize := 2, virtualLoss := 1, useTranspositionTable := true, nodePolicyTemperature := 1 }

/-- A root (address 0) with an evaluated child (address 1) that has no child yet. -/
def tree : Nat → Node
  | 0 => { leaf 0 none with hasNNResults := true, childNodes := [some 1], noVisitIdx := 1 }
  | 1 => { leaf 1 (some 0) with hasNNResults := true }
  | n => leaf n none

/-- A search thread on `tree` with empty buffers. -/
def thread : SearchThread :=
  { nodes := tree, nbNodes := 2, hashTable := [(0, 0), (1, 1)], rootNode := 0, rootPos := board 0,
    inputPlanes := [[], []], valueOutputs := [0, 0], probOutputs := [],
    newNodes := ⟨2, []⟩, newNodeSideToMove := ⟨2, []⟩, transpositionNodes := ⟨4, []⟩,
    collisionNodes := ⟨2, []⟩, tbHits := 0, isRunning := true, vlLog := [] }

/-- The tree of `terminalTree` with the terminal node at address 2 valued 1. -/
def winTree : Nat → Node
  | 0 => { leaf 0 none with hasNNResults := true, childNodes := [some 1], noVisitIdx := 1 }
  | 1 => { leaf 1 (some 0) with hasNNResults := true, childNodes := [some 2], noVisitIdx := 1 }
  | 2 => { leaf 11 (some 1) with isTerminal := true, value := 1 }
  | n => leaf n none

/-- A thread on `winTree` with empty buffers. -/
def winThread : SearchThread :=
  { thread with nodes := winTree, nbNodes := 3 }

/-- A thread whose tree is a root without children. -/
def rootThread : SearchThread :=
  { thread with nodes := fun n => leaf n none, nbNodes := 1 }

/-- A thread whose root has one child, which is still waiting for its NN results. -/
def pendingThread : SearchThread :=
  { thread with
    nodes := fun n =>
      match n with
      | 0 => { leaf 0 none with hasNNResults := true, childNodes := [some 1], noVisitIdx := 1 }
      | 1 => leaf 1 (some 0)
      | k => leaf k none }

/-- Lookup tables for a policy of three labels; the mirrored table reverses them. -/
def tables : ExportTables :=
  { NB_LABELS := 3, MV_LOOKUP_CLASSIC := fun m => m, MV_LOOKUP_MIRRORED_CLASSIC := fun m => 2 - m,
    board_to_planes := fun pos _ _ => [pos.position, 0] }

end Example

/-! ## Properties of the exporter -/

namespace TrainDataExporter

theorem invertLoop_spec (r : Int) (plys : Nat) :
    ∀ (fuel idx : Nat) (arr : List Int), arr.length = plys → plys ≤ idx + 2 * fuel →
      (invertLoop r plys fuel idx arr).length = plys ∧
      ∀ k, k < plys → (invertLoop r plys fuel idx arr)[k]? =
        if idx ≤ k ∧ (k - idx) % 2 = 0 then some (-r) else arr[k]? := by
  intro fuel
  induction fuel with
  | zero =>
    intro idx arr hlen hfuel
    refine ⟨hlen, ?_⟩
    intro k hk
    have : ¬ (idx ≤ k ∧ (k - idx) % 2 = 0) := by omega
    simp [invertLoop, this]
  | succ n ih =>
    intro idx arr hlen hfuel
    unfold invertLoop
    split
    · rename_i hidx
      obtain ⟨h1, h2⟩ := ih (idx + 2) (arr.set idx (-r)) (by simpa using hlen) (by omega)
      refine ⟨h1, ?_⟩
      intro k hk
      rw [h2 k hk]
      by_cases hk2 : idx + 2 ≤ k ∧ (k - (idx + 2)) % 2 = 0
      · have : idx ≤ k ∧ (k - idx) % 2 = 0 := by omega
        simp [hk2, this]
      · by_cases hki : k = idx
        · subst hki
          simp [List.getElem?_set, hlen, hk]
        · have : ¬ (idx ≤ k ∧ (k - idx) % 2 = 0) := by omega
          rw [if_neg hk2, if_neg this]
          simp [List.getElem?_set, Ne.symm hki]
    · rename_i hidx
      refine ⟨hlen, ?_⟩
      intro k hk
      have : ¬ (idx ≤ k ∧ (k - idx) % 2 = 0) := by omega
      simp [this]

theorem valueArray_length (r : Int) (n : Nat) : (valueArray r n).length = n := by
  unfold valueArray
  split
  · exact (invertLoop_spec r n n 1 _ (by simp) (by omega)).1
  · simp

theorem export_dValue (e : TrainDataExporter) (r : Int) (plys : Nat)
    (h : e.startIdx < e.numberSamples) :
    (export_game_samples e r plys).dValue =
      writeSubarray e.dValue (valueArray r (clampPlys e plys)) e.startIdx := by
  have : ¬ e.startIdx ≥ e.numberSamples := by omega
  simp [export_game_samples, this, save_start_idx]

theorem clampPlys_eq (e : TrainDataExporter) (plys : Nat) (h : e.startIdx < e.numberSamples) :
    clampPlys e plys = min plys (e.numberSamples - e.startIdx) := by
  unfold clampPlys
  split <;> omega

theorem export_fields (e : TrainDataExporter) (r : Int) (plys : Nat)
    (h : e.startIdx < e.numberSamples) :
    (export_game_samples e r plys).startIdx = e.startIdx + clampPlys e plys ∧
    (export_game_samples e r plys).gameIdx = e.gameIdx + 1 ∧
    (export_game_samples e r plys).numberSamples = e.numberSamples ∧
    (export_game_samples e r plys).dStartIndex =
      writeSubarray e.dStartIndex [((e.startIdx + clampPlys e plys : Nat) : Int)] (e.gameIdx + 1) := by
  have : ¬ e.startIdx ≥ e.numberSamples := by omega
  simp [export_game_samples, this, save_start_idx]

/-- Claim C2. From a state with `startIdx < numberSamples`, `export_game_samples` clamps the
ply count to `numberSamples - startIdx`: afterwards `startIdx` is
`min (startIdx + plys) numberSamples`, `gameIdx` has grown by one, the value array written
has length `min plys (numberSamples - startIdx)`, and `startIdx ≤ numberSamples` holds.
With capacity 4 and two games of three plies won, `startIdx` ends at 4, the second ply count
is clamped from 3 to 1 and `y_value` is `[1, -1, 1, 1]`. -/
theorem export_game_samples_clamp (e : TrainDataExporter) (r : Int) (plys : Nat)
    (h : e.startIdx < e.numberSamples) :
    clampPlys e plys = min plys (e.numberSamples - e.startIdx) ∧
    (export_game_samples e r plys).startIdx = min (e.startIdx + plys) e.numberSamples ∧
    (export_game_samples e r plys).gameIdx = e.gameIdx + 1 ∧
    (export_game_samples e r plys).dValue =
      writeSubarray e.dValue (valueArray r (min plys (e.numberSamples - e.startIdx))) e.startIdx ∧
    (valueArray r (min plys (e.numberSamples - e.startIdx))).length =
      min plys (e.numberSamples - e.startIdx) ∧
    (export_game_samples e r plys).startIdx ≤ (export_game_samples e r plys).numberSamples ∧
    (exportGames (create 1 4) [(WIN, 3), (WIN, 3)]).startIdx = 4 ∧
    clampPlys (export_game_samples (create 1 4) WIN 3) 3 = 1 ∧
    (exportGames (create 1 4) [(WIN, 3), (WIN, 3)]).dValue =
      [some 1, some (-1), some 1, some 1] := by
  have hc := clampPlys_eq e plys h
  obtain ⟨h1, h2, h3, _⟩ := export_fields e r plys h
  refine ⟨hc, ?_, h2, ?_, valueArray_length _ _, ?_, by decide, by decide, by decide⟩
  · rw [h1, hc]; omega
  · rw [export_dValue e r plys h, hc]
  · rw [h1, h3, hc]; omega

/-- Instance of claim C2: the second game of the overflow scenario. -/
theorem export_game_samples_clamp_witness :
    (export_game_samples (create 1 4) WIN 3).startIdx <
      (export_game_samples (create 1 4) WIN 3).numberSamples ∧
    (export_game_samples (export_game_samples (create 1 4) WIN 3) WIN 3).startIdx = 4 ∧
    (export_game_samples (export_game_samples (create 1 4) WIN 3) WIN 3).gameIdx = 2 :=
  ⟨by decide,
   (export_game_samples_clamp (export_game_samples (create 1 4) WIN 3) WIN 3 (by decide)).2.1,
   (export_game_samples_clamp (export_game_samples (create 1 4) WIN 3) WIN 3 (by decide)).2.2.1⟩


theorem save_sample_not_first (t : ExportTables) (e : TrainDataExporter) (pos : Board)
    (ev : EvalInfo) (off : Nat) (h : e.firstMove = false) :
    (save_sample t e pos ev off).firstMove = false ∧
    (save_sample t e pos ev off).gameX = e.gameX ∧
    (save_sample t e pos ev off).gamePolicy = e.gamePolicy ∧
    (save_sample t e pos ev off).gameBestMoveQ = e.gameBestMoveQ := by
  unfold save_sample
  split
  · exact ⟨h, rfl, rfl, rfl⟩
  · rename_i hg
    simp [save_planes, save_policy, save_best_move_q, h, hg]

theorem saveSamples_not_first (t : ExportTables) (samples : List (Board × EvalInfo × Nat)) :
    ∀ e : TrainDataExporter, e.firstMove = false →
      (saveSamples t e samples).gameX = e.gameX ∧
      (saveSamples t e samples).gamePolicy = e.gamePolicy ∧
      (saveSamples t e samples).gameBestMoveQ = e.gameBestMoveQ := by
  induction samples with
  | nil => intro e _; exact ⟨rfl, rfl, rfl⟩
  | cons s ss ih =>
    intro e h
    obtain ⟨pos, ev, off⟩ := s
    obtain ⟨a1, a2, a3, a4⟩ := save_sample_not_first t e pos ev off h
    obtain ⟨b1, b2, b3⟩ := ih _ a1
    simp only [saveSamples]
    exact ⟨b1.trans a2, b2.trans a3, b3.trans a4⟩

theorem save_sample_first (t : ExportTables) (e : TrainDataExporter) (pos : Board)
    (ev : EvalInfo) (off : Nat) (h : e.startIdx + off < e.numberSamples) :
    (save_sample t (new_game e) pos ev off).firstMove = false ∧
    (save_sample t (new_game e) pos ev off).gameX = [t.board_to_planes pos pos.numberRepetitions false] ∧
    (save_sample t (new_game e) pos ev off).gamePolicy =
      [fillPolicy t pos.sideToMove ev.legalMoves ev.policyProbSmall
        (List.replicate t.NB_LABELS 0)] ∧
    (save_sample t (new_game e) pos ev off).gameBestMoveQ = [ev.bestMoveQ] := by
  have hg : ¬ e.startIdx + off ≥ e.numberSamples := by omega
  have hg2 : ¬ e.numberSamples ≤ e.startIdx + off := by omega
  simp [save_sample, new_game, save_planes, save_policy, save_best_move_q, hg2]

/-- Claim C4 against the code. After `new_game` and a first `save_sample` that does not
overflow, the three game buffers hold the one row of that first sample, however many
`save_sample` calls follow: the result of `xt::concatenate` is not stored. -/
theorem game_buffers_keep_first_sample (t : ExportTables) (e : TrainDataExporter)
    (pos : Board) (ev : EvalInfo) (off : Nat) (rest : List (Board × EvalInfo × Nat))
    (h : e.startIdx + off < e.numberSamples) :
    (saveSamples t (new_game e) ((pos, ev, off) :: rest)).gameX = [t.board_to_planes pos pos.numberRepetitions false] ∧
    (saveSamples t (new_game e) ((pos, ev, off) :: rest)).gamePolicy =
      [fillPolicy t pos.sideToMove ev.legalMoves ev.policyProbSmall
        (List.replicate t.NB_LABELS 0)] ∧
    (saveSamples t (new_game e) ((pos, ev, off) :: rest)).gameBestMoveQ = [ev.bestMoveQ] := by
  obtain ⟨a1, a2, a3, a4⟩ := save_sample_first t e pos ev off h
  obtain ⟨b1, b2, b3⟩ := saveSamples_not_first t rest _ a1
  simp only [saveSamples]
  exact ⟨b1.trans a2, b2.trans a3, b3.trans a4⟩

/-- Claim C4 at two samples: after `new_game` and two `save_sample` calls within capacity the
buffers have one row, the first sample, where the claim has two. -/
theorem game_buffers_two_samples :
    (create 1 4).startIdx + 0 < (create 1 4).numberSamples ∧
    (create 1 4).startIdx + 1 < (create 1 4).numberSamples ∧
    (saveSamples Example.tables (new_game (create 1 4))
      [(Example.board 1, ⟨[0, 2], [1 / 4, 3 / 4], 1 / 2⟩, 0),
       (Example.board 12, ⟨[1], [1], -1 / 2⟩, 1)]).gameX = [[1, 0]] ∧
    (saveSamples Example.tables (new_game (create 1 4))
      [(Example.board 1, ⟨[0, 2], [1 / 4, 3 / 4], 1 / 2⟩, 0),
       (Example.board 12, ⟨[1], [1], -1 / 2⟩, 1)]).gameBestMoveQ = [1 / 2] ∧
    (saveSamples Example.tables (new_game (create 1 4))
      [(Example.board 1, ⟨[0, 2], [1 / 4, 3 / 4], 1 / 2⟩, 0),
       (Example.board 12, ⟨[1], [1], -1 / 2⟩, 1)]).gamePolicy = [[1 / 4, 0, 3 / 4]] := by
  have h := game_buffers_keep_first_sample Example.tables (create 1 4)
    (Example.board 1) ⟨[0, 2], [1 / 4, 3 / 4], 1 / 2⟩ 0
    [(Example.board 12, ⟨[1], [1], -1 / 2⟩, 1)] (by decide)
  refine ⟨by decide, by decide, h.1, h.2.2, ?_⟩
  rw [h.2.1]
  simp [fillPolicy, Example.tables, Example.board]

end TrainDataExporter

/-! ## Properties of the search thread -/

namespace SearchThread

theorem setNode_nodes_same (st : SearchThread) (n : Nat) (nd : Node) :
    (st.setNode n nd).nodes n = nd := by
  simp [setNode]

theorem setNode_nodes_ne (st : SearchThread) (n m : Nat) (nd : Node) (h : m ≠ n) :
    (st.setNode n nd).nodes m = st.nodes m := by
  simp [setNode, Function.update_noteq h]

theorem is_transposition_verified_iff (st : SearchThread) (it : Nat) (si : StateInfo) :
    is_transposition_verified st it si = true ↔
      ((st.nodes it).hasNNResults = true ∧ (st.nodes it).pliesFromNull = si.pliesFromNull ∧
        si.repetition = 0) := by
  simp [is_transposition_verified, and_assoc]

theorem add_new_node_to_tree_cases (env : SearchEnv) (settings : SearchSettings)
    (st : SearchThread) (newPos : Board) (parentNode : Nat) (childIdx : Nat) (inCheck : Bool) :
    (∃ it, settings.useTranspositionTable = true ∧ find st.hashTable newPos.hashKey = some it ∧
        is_transposition_verified st it newPos.stateInfo = true ∧
        add_new_node_to_tree env settings st newPos parentNode childIdx inCheck =
          add_transposition_node st it parentNode childIdx) ∨
    ((¬ ∃ it, settings.useTranspositionTable = true ∧
        find st.hashTable newPos.hashKey = some it ∧
        is_transposition_verified st it newPos.stateInfo = true) ∧
      add_new_node_to_tree env settings st newPos parentNode childIdx inCheck =
        add_fresh_node env settings st newPos parentNode childIdx inCheck) := by
  unfold add_new_node_to_tree
  cases hf : find st.hashTable newPos.hashKey with
  | none => right; simp
  | some it =>
    by_cases hc : (settings.useTranspositionTable &&
        is_transposition_verified st it newPos.stateInfo) = true
    · left
      simp only [hc, if_true]
      simp only [Bool.and_eq_true] at hc
      exact ⟨it, hc.1, rfl, hc.2, rfl⟩
    · right
      simp only [hc]
      refine ⟨?_, by simp⟩
      rintro ⟨it2, h1, h2, h3⟩
      cases h2
      exact hc (by simp [h1, h3])

theorem add_fresh_node_fields (env : SearchEnv) (settings : SearchSettings)
    (st : SearchThread) (newPos : Board) (parentNode : Nat) (childIdx : Nat) (inCheck : Bool) :
    (add_fresh_node env settings st newPos parentNode childIdx inCheck).transpositionNodes =
      st.transpositionNodes ∧
    (add_fresh_node env settings st newPos parentNode childIdx inCheck).collisionNodes =
      st.collisionNodes ∧
    (add_fresh_node env settings st newPos parentNode childIdx inCheck).newNodes.data =
      st.newNodes.data ++ [st.nbNodes] ∧
    (add_fresh_node env settings st newPos parentNode childIdx inCheck).newNodeSideToMove.data =
      st.newNodeSideToMove.data ++ [newPos.sideToMove] ∧
    (add_fresh_node env settings st newPos parentNode childIdx inCheck).nbNodes = st.nbNodes + 1 ∧
    (add_fresh_node env settings st newPos parentNode childIdx inCheck).hashTable = st.hashTable ∧
    (add_fresh_node env settings st newPos parentNode childIdx inCheck).vlLog = st.vlLog := by
  simp [add_fresh_node, setNode, FixedVector.add_element]

theorem add_fresh_node_nodes (env : SearchEnv) (settings : SearchSettings)
    (st : SearchThread) (newPos : Board) (parentNode : Nat) (childIdx : Nat) (inCheck : Bool)
    (hp : parentNode ≠ st.nbNodes) :
    (add_fresh_node env settings st newPos parentNode childIdx inCheck).nodes st.nbNodes =
      Node.create env newPos inCheck parentNode childIdx settings ∧
    (add_fresh_node env settings st newPos parentNode childIdx inCheck).nodes parentNode =
      ((st.nodes parentNode).increment_no_visit_idx).add_new_child_node st.nbNodes childIdx ∧
    ∀ m, m ≠ parentNode → m ≠ st.nbNodes →
      (add_fresh_node env settings st newPos parentNode childIdx inCheck).nodes m = st.nodes m := by
  refine ⟨?_, ?_, ?_⟩
  · simp [add_fresh_node, setNode, Function.update_noteq (Ne.symm hp)]
  · simp [add_fresh_node, setNode, Function.update_noteq hp]
  · intro m h1 h2
    simp [add_fresh_node, setNode, Function.update_noteq h1, Function.update_noteq h2]

theorem add_transposition_node_fields (st : SearchThread) (it parentNode : Nat)
    (childIdx : Nat) :
    (add_transposition_node st it parentNode childIdx).transpositionNodes.data =
      st.transpositionNodes.data ++ [st.nbNodes] ∧
    (add_transposition_node st it parentNode childIdx).collisionNodes = st.collisionNodes ∧
    (add_transposition_node st it parentNode childIdx).newNodes = st.newNodes ∧
    (add_transposition_node st it parentNode childIdx).newNodeSideToMove =
      st.newNodeSideToMove ∧
    (add_transposition_node st it parentNode childIdx).nbNodes = st.nbNodes + 1 ∧
    (add_transposition_node st it parentNode childIdx).hashTable = st.hashTable ∧
    (add_transposition_node st it parentNode childIdx).vlLog = st.vlLog := by
  simp [add_transposition_node, setNode, FixedVector.add_element]

theorem add_transposition_node_nodes (st : SearchThread) (it parentNode : Nat)
    (childIdx : Nat) (hp : parentNode ≠ st.nbNodes) :
    (add_transposition_node st it parentNode childIdx).nodes st.nbNodes =
      { st.nodes it with parentNode := some parentNode, childIdxForParent := childIdx } ∧
    (add_transposition_node st it parentNode childIdx).nodes parentNode =
      ((st.nodes parentNode).add_transposition_child_node st.nbNodes childIdx).increment_no_visit_idx ∧
    ∀ m, m ≠ parentNode → m ≠ st.nbNodes →
      (add_transposition_node st it parentNode childIdx).nodes m = st.nodes m := by
  refine ⟨?_, ?_, ?_⟩
  · simp [add_transposition_node, setNode, Function.update_noteq (Ne.symm hp)]
  · simp [add_transposition_node, setNode, Function.update_noteq hp]
  · intro m h1 h2
    simp [add_transposition_node, setNode, Function.update_noteq h1, Function.update_noteq h2]

/-- Claim C6. `add_new_node_to_tree` either installs a transposition alias or creates a fresh
node. It pushes into `transpositionNodes` only if the map holds an entry for the hash of the
new position whose node has NN results and the plies-from-null of the new state, the new
state having repetition 0. In every other case, an unverified hit included, it is a miss:
a fresh node is created at a new address, attached as ordinary child of the parent, pushed
into `newNodes` with its side to move, and `transpositionNodes` is unchanged. -/
theorem add_new_node_to_tree_alias (env : SearchEnv) (settings : SearchSettings)
    (st : SearchThread) (newPos : Board) (parentNode : Nat) (childIdx : Nat) (inCheck : Bool) :
    ((∃ it, add_new_node_to_tree env settings st newPos parentNode childIdx inCheck =
          add_transposition_node st it parentNode childIdx) ∨
      add_new_node_to_tree env settings st newPos parentNode childIdx inCheck =
        add_fresh_node env settings st newPos parentNode childIdx inCheck) ∧
    ((add_new_node_to_tree env settings st newPos parentNode childIdx inCheck).transpositionNodes.data
        ≠ st.transpositionNodes.data →
      ∃ it, find st.hashTable newPos.hashKey = some it ∧
        (st.nodes it).hasNNResults = true ∧
        (st.nodes it).pliesFromNull = newPos.stateInfo.pliesFromNull ∧
        newPos.stateInfo.repetition = 0 ∧
        add_new_node_to_tree env settings st newPos parentNode childIdx inCheck =
          add_transposition_node st it parentNode childIdx) ∧
    ((¬ ∃ it, find st.hashTable newPos.hashKey = some it ∧
        (st.nodes it).hasNNResults = true ∧
        (st.nodes it).pliesFromNull = newPos.stateInfo.pliesFromNull ∧
        newPos.stateInfo.repetition = 0) →
      add_new_node_to_tree env settings st newPos parentNode childIdx inCheck =
        add_fresh_node env settings st newPos parentNode childIdx inCheck ∧
      (add_new_node_to_tree env settings st newPos parentNode childIdx inCheck).transpositionNodes =
        st.transpositionNodes ∧
      (add_new_node_to_tree env settings st newPos parentNode childIdx inCheck).newNodes.data =
        st.newNodes.data ++ [st.nbNodes] ∧
      (add_new_node_to_tree env settings st newPos parentNode childIdx
        inCheck).newNodeSideToMove.data = st.newNodeSideToMove.data ++ [newPos.sideToMove] ∧
      (parentNode ≠ st.nbNodes →
        (add_new_node_to_tree env settings st newPos parentNode childIdx inCheck).nodes st.nbNodes =
          Node.create env newPos inCheck parentNode childIdx settings ∧
        ((add_new_node_to_tree env settings st newPos parentNode childIdx inCheck).nodes
          parentNode).childNodes = (st.nodes parentNode).childNodes.set childIdx (some st.nbNodes) ∧
        ((add_new_node_to_tree env settings st newPos parentNode childIdx inCheck).nodes
          parentNode).transpositionChild = (st.nodes parentNode).transpositionChild)) := by
  rcases add_new_node_to_tree_cases env settings st newPos parentNode childIdx inCheck with
    ⟨it, _, hf, hv, heq⟩ | ⟨hno, heq⟩
  · rw [is_transposition_verified_iff] at hv
    refine ⟨Or.inl ⟨it, heq⟩, fun _ => ⟨it, hf, hv.1, hv.2.1, hv.2.2, heq⟩, ?_⟩
    intro hn
    exact absurd ⟨it, hf, hv.1, hv.2.1, hv.2.2⟩ hn
  · obtain ⟨f1, _, f3, f4, _, _, _⟩ :=
      add_fresh_node_fields env settings st newPos parentNode childIdx inCheck
    refine ⟨Or.inr heq, ?_, ?_⟩
    · intro hne
      rw [heq, f1] at hne
      exact absurd rfl hne
    · intro _
      rw [heq]
      refine ⟨rfl, f1, f3, f4, ?_⟩
      intro hp
      obtain ⟨n1, n2, _⟩ := add_fresh_node_nodes env settings st newPos parentNode childIdx inCheck hp
      rw [n1, n2]
      exact ⟨rfl, rfl, rfl⟩

theorem sameTree_refl (a : SearchThread) : SameTree a a := fun _ => ⟨rfl, rfl, rfl, rfl, rfl, rfl⟩

theorem sameTree_trans {a b c : SearchThread} (h1 : SameTree a b) (h2 : SameTree b c) :
    SameTree a c := by
  intro n
  obtain ⟨a1, a2, a3, a4, a5, a6⟩ := h1 n
  obtain ⟨b1, b2, b3, b4, b5, b6⟩ := h2 n
  exact ⟨a1.trans b1, a2.trans b2, a3.trans b3, a4.trans b4, a5.trans b5, a6.trans b6⟩

theorem sameTree_symm {a b : SearchThread} (h : SameTree a b) : SameTree b a := by
  intro n
  obtain ⟨a1, a2, a3, a4, a5, a6⟩ := h n
  exact ⟨a1.symm, a2.symm, a3.symm, a4.symm, a5.symm, a6.symm⟩

theorem apply_virtual_loss_sameTree (st : SearchThread) (n : Nat) (i : Nat) (vl : ℚ) :
    SameTree (st.apply_virtual_loss_to_child n i vl) st := by
  intro m
  by_cases h : m = n
  · subst h
    simp [apply_virtual_loss_to_child, setNode, Node.apply_virtual_loss_to_child]
  · simp [apply_virtual_loss_to_child, setNode, Function.update_noteq h]

theorem apply_virtual_loss_vlLog (st : SearchThread) (n : Nat) (i : Nat) (vl : ℚ) :
    (st.apply_virtual_loss_to_child n i vl).vlLog = st.vlLog ++ [VLEvent.apply n i] := rfl

theorem descentStep_of_sameTree {a b : SearchThread} (h : SameTree a b) {x y : Nat × Nat}
    (hs : DescentStep a x y) : DescentStep b x y := by
  obtain ⟨s1, s2, s3⟩ := hs
  refine ⟨?_, ?_, ?_⟩
  · unfold Node.get_child_node at s1 ⊢
    rw [← (h x.1).1]; exact s1
  · rw [← (h y.1).2.1]; exact s2
  · rw [← (h y.1).2.2.1]; exact s3

theorem descend_spec (env : SearchEnv) (settings : SearchSettings) :
    ∀ (fuel : Nat) (st : SearchThread) (pos : Board) (cur : Nat) (desc : NodeDescription)
      (inCheck : Bool) (states : Nat) (d : Descent),
      descend env settings fuel st pos cur desc inCheck states = some d →
      SameTree d.st st ∧ Classified d ∧
      ∃ path : List (Nat × Nat),
        d.st.vlLog = st.vlLog ++ path.map (fun s => VLEvent.apply s.1 s.2) ∧
        (path.head?).map Prod.fst = some cur ∧
        path.getLast? = some (d.parentNode, d.childIdx) ∧
        List.Chain' (DescentStep d.st) path := by
  intro fuel
  induction fuel with
  | zero => intro st pos cur desc inCheck states d h; simp [descend] at h
  | succ n ih =>
    intro st pos cur desc inCheck states d h
    have hT := apply_virtual_loss_sameTree st cur
      (env.select_child_node (st.nodes cur) settings) settings.virtualLoss
    have hL := apply_virtual_loss_vlLog st cur
      (env.select_child_node (st.nodes cur) settings) settings.virtualLoss
    simp only [descend] at h
    split at h
    · rename_i hnone
      cases h
      refine ⟨hT, ?_, [(cur, env.select_child_node (st.nodes cur) settings)], ?_, rfl, rfl, ?_⟩
      · simp [Classified, hnone]
      · simp [hL]
      · simp
    · rename_i next hsome
      split at h
      · rename_i hterm
        cases h
        refine ⟨hT, ?_, [(cur, env.select_child_node (st.nodes cur) settings)], ?_, rfl, rfl, ?_⟩
        · simp [Classified, hsome, hterm]
        · simp [hL]
        · simp
      · rename_i hterm
        split at h
        · rename_i hnn
          cases h
          refine ⟨hT, ?_, [(cur, env.select_child_node (st.nodes cur) settings)], ?_, rfl, rfl, ?_⟩
          · simp at hnn hterm
            simp [Classified, hsome, hterm, hnn]
          · simp [hL]
          · simp
        · rename_i hnn
          obtain ⟨i1, i2, path, p1, p2, p3, p4⟩ := ih _ _ _ _ _ _ _ h
          refine ⟨sameTree_trans i1 hT, i2,
            (cur, env.select_child_node (st.nodes cur) settings) :: path, ?_, rfl, ?_, ?_⟩
          · rw [p1, hL]; simp
          · cases path with
            | nil => simp at p2
            | cons x xs => simpa using p3
          · cases path with
            | nil => simp at p2
            | cons x xs =>
              simp only [List.head?_cons, Option.map_some', Option.some.injEq] at p2
              refine List.Chain'.cons ?_ p4
              apply descentStep_of_sameTree (sameTree_symm i1)
              simp at hnn hterm
              exact ⟨by rw [p2]; exact hsome, by rw [p2]; exact hterm, by rw [p2]; exact hnn⟩

/-- Claim C8. Whenever `get_new_child_to_evaluate` returns `(parentNode, childIdx)`, the
descriptor classifies the selected child exactly: not collision and not terminal iff the
child is null; not collision and terminal iff it is non-null and terminal; collision and not
terminal iff it is non-null, not terminal and without NN results; the flags are never both
true. The slots the descent applied virtual loss to form a path from the root to
`(parentNode, childIdx)`, and every node entered along it was a non-terminal child with NN
results. The descent changes no child pointer and no flag. -/
theorem get_new_child_to_evaluate_classifies (env : SearchEnv) (settings : SearchSettings)
    (fuel : Nat) (st : SearchThread) (pos : Board) (rootNode : Nat)
    (description : NodeDescription) (inCheck : Bool) (d : Descent)
    (h : get_new_child_to_evaluate env settings fuel st pos rootNode description inCheck =
      some d) :
    SameTree d.st st ∧ Classified d ∧
    ∃ path : List (Nat × Nat),
      d.st.vlLog = st.vlLog ++ path.map (fun s => VLEvent.apply s.1 s.2) ∧
      (path.head?).map Prod.fst = some rootNode ∧
      path.getLast? = some (d.parentNode, d.childIdx) ∧
      List.Chain' (DescentStep d.st) path :=
  descend_spec env settings fuel st pos rootNode _ inCheck 0 d h

/-- Instance of claim C8: on the example tree the descent passes the evaluated child at
address 1 and returns its empty slot 0 as an expansion. -/
theorem get_new_child_to_evaluate_classifies_witness :
    ∃ d, get_new_child_to_evaluate Example.env Example.settings 10 Example.thread
        (Example.board 0) 0 ⟨0, false, false⟩ false = some d ∧
      d.parentNode = 1 ∧ d.childIdx = 0 ∧ d.description.isCollision = false ∧
      d.description.isTerminal = false ∧ Classified d := by
  have hv : (get_new_child_to_evaluate Example.env Example.settings 10 Example.thread
      (Example.board 0) 0 ⟨0, false, false⟩ false).map
      (fun d => (d.parentNode, d.childIdx, d.description.isCollision,
        d.description.isTerminal)) = some (1, 0, false, false) := by decide
  cases hd : get_new_child_to_evaluate Example.env Example.settings 10 Example.thread
      (Example.board 0) 0 ⟨0, false, false⟩ false with
  | none => rw [hd] at hv; simp at hv
  | some d =>
    rw [hd] at hv
    simp only [Option.map_some', Option.some.injEq, Prod.mk.injEq] at hv
    exact ⟨d, rfl, hv.1, hv.2.1, hv.2.2.1, hv.2.2.2,
      (get_new_child_to_evaluate_classifies Example.env Example.settings 10 Example.thread
        (Example.board 0) 0 ⟨0, false, false⟩ false d hd).2.1⟩

theorem fill_nn_results_hashTable (env : SearchEnv) (st : SearchThread) (batchIdx : Nat)
    (isPolicyMap : Bool) (valueOutputs probOutputs : List ℚ) (node : Nat) (side : Color)
    (settings : SearchSettings) :
    (fill_nn_results env st batchIdx isPolicyMap valueOutputs probOutputs node side
      settings).hashTable = st.hashTable := by
  unfold fill_nn_results node_post_process_policy node_assign_value
  simp only [setNode]
  split <;> split <;> (try split) <;> rfl

end SearchThread

/-! ## Virtual-loss accounting -/

namespace SearchThread

theorem sameLinks_trans {a b c : SearchThread} (h1 : SameLinks a b) (h2 : SameLinks b c) :
    SameLinks a c := by
  obtain ⟨a1, a2, a3, a4, a5, a6⟩ := h1
  obtain ⟨b1, b2, b3, b4, b5, b6⟩ := h2
  refine ⟨b1.trans a1, b2.trans a2, b3.trans a3, b4.trans a4, b5.trans a5, fun n => ?_⟩
  obtain ⟨x1, x2, x3⟩ := a6 n
  obtain ⟨y1, y2, y3⟩ := b6 n
  exact ⟨y1.trans x1, y2.trans x2, y3.trans x3⟩

theorem sameLinks_grows {a b : SearchThread} (h : SameLinks a b) : Grows a b :=
  ⟨by rw [h.1], h.2.1, fun n _ => ⟨(h.2.2.2.2.2 n).2.1, (h.2.2.2.2.2 n).2.2⟩⟩

theorem grows_refl (a : SearchThread) : Grows a a :=
  ⟨Nat.le_refl _, rfl, fun _ _ => ⟨rfl, rfl⟩⟩

theorem grows_trans {a b c : SearchThread} (h1 : Grows a b) (h2 : Grows b c) : Grows a c := by
  obtain ⟨a1, a2, a3⟩ := h1
  obtain ⟨b1, b2, b3⟩ := h2
  refine ⟨Nat.le_trans a1 b1, b2.trans a2, fun n hn => ?_⟩
  obtain ⟨x1, x2⟩ := a3 n hn
  obtain ⟨y1, y2⟩ := b3 n (Nat.lt_of_lt_of_le hn a1)
  exact ⟨y1.trans x1, y2.trans x2⟩

theorem up_slots_sameLinks {a b : SearchThread} (h : SameLinks a b) :
    ∀ (fuel : Nat) (q i : Nat), up_slots fuel b q i = up_slots fuel a q i := by
  intro fuel
  induction fuel with
  | zero => intro q i; rfl
  | succ k ih =>
    intro q i
    simp only [up_slots]
    rw [(h.2.2.2.2.2 q).2.1, (h.2.2.2.2.2 q).2.2]
    cases (a.nodes q).parentNode with
    | none => rfl
    | some p => simp only; rw [ih]

/-- Replacing a node by one with the same links keeps the links of the state. -/
theorem setNode_sameLinks (st : SearchThread) (n : Nat) (nd : Node)
    (h1 : nd.childNodes = (st.nodes n).childNodes)
    (h2 : nd.parentNode = (st.nodes n).parentNode)
    (h3 : nd.childIdxForParent = (st.nodes n).childIdxForParent) :
    SameLinks st (st.setNode n nd) := by
  refine ⟨rfl, rfl, rfl, rfl, rfl, fun m => ?_⟩
  by_cases hm : m = n
  · subst hm; rw [setNode_nodes_same]; exact ⟨h1, h2, h3⟩
  · rw [setNode_nodes_ne _ _ _ _ hm]; exact ⟨rfl, rfl, rfl⟩

theorem apply_virtual_loss_sameLinks (st : SearchThread) (n : Nat) (i : Nat) (vl : ℚ) :
    SameLinks st (st.apply_virtual_loss_to_child n i vl) :=
  setNode_sameLinks st n _ rfl rfl rfl

theorem backup_value_spec :
    ∀ (fuel : Nat) (st : SearchThread) (n : Nat) (i : Nat) (v vl : ℚ) (st2 : SearchThread),
      backup_value fuel st n i v vl = some st2 →
      st2.vlLog = st.vlLog ++ (up_slots fuel st n i).map (fun s => VLEvent.revert s.1 s.2) ∧
      SameLinks st st2 := by
  intro fuel
  induction fuel with
  | zero => intro st n i v vl st2 h; simp [backup_value] at h
  | succ k ih =>
    intro st n i v vl st2 h
    simp only [backup_value] at h
    have hs : SameLinks st
        { st.setNode n ((st.nodes n).revert_virtual_loss_and_update i vl v) with
          vlLog := st.vlLog ++ [VLEvent.revert n i] } :=
      setNode_sameLinks st n _ rfl rfl rfl
    simp only [up_slots]
    cases hp : (st.nodes n).parentNode with
    | none =>
      rw [hp] at h
      simp only [Option.some.injEq] at h
      subst h
      exact ⟨by simp, hs⟩
    | some p =>
      rw [hp] at h
      simp only at h
      obtain ⟨l1, l2⟩ := ih _ _ _ _ _ _ h
      refine ⟨?_, sameLinks_trans hs l2⟩
      rw [l1]
      rw [up_slots_sameLinks hs]
      simp

theorem descend_sameLinks (env : SearchEnv) (settings : SearchSettings) :
    ∀ (fuel : Nat) (st : SearchThread) (pos : Board) (cur : Nat) (desc : NodeDescription)
      (inCheck : Bool) (states : Nat) (d : Descent),
      descend env settings fuel st pos cur desc inCheck states = some d →
      SameLinks st d.st := by
  intro fuel
  induction fuel with
  | zero => intro st pos cur desc inCheck states d h; simp [descend] at h
  | succ n ih =>
    intro st pos cur desc inCheck states d h
    have hT := apply_virtual_loss_sameLinks st cur
      (env.select_child_node (st.nodes cur) settings) settings.virtualLoss
    simp only [descend] at h
    split at h
    · cases h; exact hT
    · split at h
      · cases h; exact hT
      · split at h
        · cases h; exact hT
        · exact sameLinks_trans hT (ih _ _ _ _ _ _ _ h)

theorem descend_depth (env : SearchEnv) (settings : SearchSettings) :
    ∀ (fuel : Nat) (st : SearchThread) (pos : Board) (cur : Nat) (desc : NodeDescription)
      (inCheck : Bool) (states : Nat) (d : Descent),
      descend env settings fuel st pos cur desc inCheck states = some d →
      d.description.depth + states = desc.depth + d.states + 1 ∧
      d.st.vlLog.length + states = st.vlLog.length + d.states + 1 ∧
      states ≤ d.states ∧ (d.states = states → d.parentNode = cur) := by
  intro fuel
  induction fuel with
  | zero => intro st pos cur desc inCheck states d h; simp [descend] at h
  | succ n ih =>
    intro st pos cur desc inCheck states d h
    have hL := apply_virtual_loss_vlLog st cur
      (env.select_child_node (st.nodes cur) settings) settings.virtualLoss
    simp only [descend] at h
    split at h
    · cases h; simp [hL]; omega
    · split at h
      · cases h; simp [hL]; omega
      · split at h
        · cases h; simp [hL]; omega
        · obtain ⟨a1, a2, a3, _⟩ := ih _ _ _ _ _ _ _ h
          rw [hL] at a2
          simp only [List.length_append, List.length_singleton] at a2
          simp only at a1
          refine ⟨by omega, by omega, by omega, fun he => ?_⟩
          omega

/-- Claim C12, amended. The depth that `get_new_child_to_evaluate` reports is the number of
selections the descent made, one more than the number of times it advanced from a node to a
child with NN results: the counter is set to 0 at entry and incremented in every round,
before the tests that end the descent. The advances are counted by the entries appended to
the state list, and the slots selected form the path from the root to the returned slot. A
descent that returns at the root, without any advance, reports depth 1. -/
theorem get_new_child_to_evaluate_depth (env : SearchEnv) (settings : SearchSettings)
    (fuel : Nat) (st : SearchThread) (pos : Board) (rootNode : Nat)
    (description : NodeDescription) (inCheck : Bool) (d : Descent)
    (h : get_new_child_to_evaluate env settings fuel st pos rootNode description inCheck =
      some d) :
    d.description.depth = d.states + 1 ∧
    (d.states = 0 → d.parentNode = rootNode ∧ d.description.depth = 1) ∧
    ∃ path : List (Nat × Nat),
      d.st.vlLog = st.vlLog ++ path.map (fun s => VLEvent.apply s.1 s.2) ∧
      (path.head?).map Prod.fst = some rootNode ∧
      path.getLast? = some (d.parentNode, d.childIdx) ∧
      List.Chain' (DescentStep d.st) path ∧
      path.length = d.description.depth := by
  unfold get_new_child_to_evaluate at h
  obtain ⟨a1, a2, _, a3⟩ := descend_depth env settings fuel st pos rootNode _ inCheck 0 d h
  obtain ⟨_, _, path, p1, p2, p3, p4⟩ := descend_spec env settings fuel st pos rootNode _ inCheck 0 d h
  simp only at a1
  refine ⟨by omega, fun h0 => ⟨a3 h0, by omega⟩, path, p1, p2, p3, p4, ?_⟩
  rw [p1] at a2
  simp only [List.length_append, List.length_map] at a2
  omega

/-- Instance of the amended claim C12: on the example tree with a terminal node below the
evaluated child, the descent advances once and reports depth 2. -/
theorem get_new_child_to_evaluate_depth_witness :
    ∃ d, get_new_child_to_evaluate Example.env Example.settings 10 Example.winThread
        (Example.board 0) 0 ⟨7, false, false⟩ false = some d ∧
      d.parentNode = 1 ∧ d.states = 1 ∧ d.description.depth = 2 ∧
      d.description.depth = d.states + 1 := by
  have hv : (get_new_child_to_evaluate Example.env Example.settings 10 Example.winThread
      (Example.board 0) 0 ⟨7, false, false⟩ false).map
      (fun d => (d.parentNode, d.states, d.description.depth)) = some (1, 1, 2) := by decide
  cases hd : get_new_child_to_evaluate Example.env Example.settings 10 Example.winThread
      (Example.board 0) 0 ⟨7, false, false⟩ false with
  | none => rw [hd] at hv; simp at hv
  | some d =>
    rw [hd] at hv
    simp only [Option.map_some', Option.some.injEq, Prod.mk.injEq] at hv
    exact ⟨d, rfl, hv.1, hv.2.1, hv.2.2,
      (get_new_child_to_evaluate_depth Example.env Example.settings 10 Example.winThread
        (Example.board 0) 0 ⟨7, false, false⟩ false d hd).1⟩

/-- Claim C12 fails as stated. A descent that returns at the root reports depth 1, not 0: on
a root without children it ends as an expansion of slot 0 of the root, on a root whose child
waits for its NN results as a collision on that child, both without any advance (no entry in
the state list) and with depth 1. -/
theorem get_new_child_to_evaluate_depth_counterexample :
    (get_new_child_to_evaluate Example.env Example.settings 10 Example.rootThread
      (Example.board 0) Example.rootThread.rootNode ⟨0, false, false⟩ false).map
      (fun d => (d.parentNode, d.states, d.description.isCollision, d.description.isTerminal,
        d.description.depth)) = some (0, 0, false, false, 1) ∧
    (get_new_child_to_evaluate Example.env Example.settings 10 Example.pendingThread
      (Example.board 0) Example.pendingThread.rootNode ⟨0, false, false⟩ false).map
      (fun d => (d.parentNode, d.states, d.description.isCollision, d.description.isTerminal,
        d.description.depth)) = some (0, 0, true, false, 1) := by
  decide

/-! ## Buffer invariant of `create_mini_batch` -/

theorem descend_newNodeSideToMove (env : SearchEnv) (settings : SearchSettings) :
    ∀ (fuel : Nat) (st : SearchThread) (pos : Board) (cur : Nat) (desc : NodeDescription)
      (inCheck : Bool) (states : Nat) (d : Descent),
      descend env settings fuel st pos cur desc inCheck states = some d →
      d.st.newNodeSideToMove = st.newNodeSideToMove := by
  intro fuel
  induction fuel with
  | zero => intro st pos cur desc inCheck states d h; simp [descend] at h
  | succ n ih =>
    intro st pos cur desc inCheck states d h
    simp only [descend] at h
    split at h
    · cases h; rfl
    · split at h
      · cases h; rfl
      · split at h
        · cases h; rfl
        · exact (ih _ _ _ _ _ _ _ h).trans rfl

theorem backup_value_newNodeSideToMove :
    ∀ (fuel : Nat) (st : SearchThread) (n : Nat) (i : Nat) (v vl : ℚ) (st2 : SearchThread),
      backup_value fuel st n i v vl = some st2 →
      st2.newNodeSideToMove = st.newNodeSideToMove := by
  intro fuel
  induction fuel with
  | zero => intro st n i v vl st2 h; simp [backup_value] at h
  | succ k ih =>
    intro st n i v vl st2 h
    simp only [backup_value] at h
    cases hp : (st.nodes n).parentNode with
    | none =>
      rw [hp] at h
      simp only [Option.some.injEq] at h
      subst h
      rfl
    | some p =>
      rw [hp] at h
      simp only at h
      exact (ih _ _ _ _ _ _ h).trans rfl

theorem add_new_node_to_tree_capacity (env : SearchEnv) (settings : SearchSettings)
    (st : SearchThread) (newPos : Board) (parentNode : Nat) (childIdx : Nat) (inCheck : Bool) :
    (add_new_node_to_tree env settings st newPos parentNode childIdx inCheck).newNodes.capacity =
      st.newNodes.capacity ∧
    (add_new_node_to_tree env settings st newPos parentNode childIdx
      inCheck).newNodeSideToMove.capacity = st.newNodeSideToMove.capacity ∧
    (add_new_node_to_tree env settings st newPos parentNode childIdx
      inCheck).transpositionNodes.capacity = st.transpositionNodes.capacity ∧
    (add_new_node_to_tree env settings st newPos parentNode childIdx
      inCheck).collisionNodes.capacity = st.collisionNodes.capacity := by
  rcases add_new_node_to_tree_cases env settings st newPos parentNode childIdx inCheck with
    ⟨it, _, _, _, h⟩ | ⟨_, h⟩
  · rw [h]; simp [add_transposition_node, setNode, FixedVector.add_element]
  · rw [h]; simp [add_fresh_node, setNode, FixedVector.add_element]

theorem create_mini_batch_loop_succ (env : SearchEnv) (settings : SearchSettings) (fuel : Nat)
    (rounds : Nat) (st : SearchThread) (numTerminalNodes : Nat) (description : NodeDescription)
    (inCheck : Bool) :
    create_mini_batch_loop env settings fuel (rounds + 1) st numTerminalNodes description inCheck =
      if create_mini_batch_continues env st numTerminalNodes = true then
        match create_mini_batch_body env settings fuel st numTerminalNodes description inCheck with
        | none => none
        | some next =>
            create_mini_batch_loop env settings fuel rounds next.1 next.2.1 next.2.2.1 next.2.2.2
      else some st := by
  simp only [create_mini_batch_loop, create_mini_batch_continues, create_mini_batch_body]
  split
  · split
    · rfl
    · split
      · split
        · rfl
        · split <;> rfl
      · split <;> rfl
  · rfl

theorem not_full_lt {α : Type} (v : FixedVector α) (h : v.is_full = false)
    (hle : v.size ≤ v.capacity) : v.size < v.capacity := by
  simp only [FixedVector.is_full, beq_eq_false_iff_ne, ne_eq] at h
  omega

theorem create_mini_batch_continues_iff (env : SearchEnv) (st : SearchThread) (k : Nat) :
    create_mini_batch_continues env st k = true ↔
      (st.newNodes.is_full = false ∧ st.collisionNodes.is_full = false ∧
        st.transpositionNodes.is_full = false ∧ k < env.TERMINAL_NODE_CACHE) := by
  simp [create_mini_batch_continues, and_assoc]

theorem create_mini_batch_body_outcome (env : SearchEnv) (settings : SearchSettings)
    (fuel : Nat) (a b : SearchThread × Nat) (hcap : ConstructedCapacities settings a.1)
    (hin : BuffersWithin settings a.1) (hstep : LoopStep env settings fuel a b) :
    OneOutcome a b := by
  obtain ⟨hguard, desc, ic, desc2, ic2, hbody⟩ := hstep
  obtain ⟨g1, g2, g3, _⟩ := (create_mini_batch_continues_iff env a.1 a.2).mp hguard
  obtain ⟨c1, c2, c3, c4⟩ := hcap
  obtain ⟨w1, w2, w3, w4⟩ := hin
  have n1 := not_full_lt _ g1 (by rw [c1]; exact w1)
  have n2 := not_full_lt _ g2 (by rw [c4]; exact w2)
  have n3 := not_full_lt _ g3 (by rw [c3]; omega)
  have n4 : a.1.newNodeSideToMove.size < a.1.newNodeSideToMove.capacity := by
    rw [← w4, c2, ← c1]; exact n1
  unfold create_mini_batch_body at hbody
  split at hbody
  · simp at hbody
  · rename_i d hd
    unfold get_new_child_to_evaluate at hd
    have hs := descend_sameLinks env settings fuel _ _ _ _ _ _ d hd
    have hside := descend_newNodeSideToMove env settings fuel _ _ _ _ _ _ d hd
    obtain ⟨_, _, s1, s2, s3, _⟩ := hs
    split at hbody
    · split at hbody
      · simp at hbody
      · split at hbody
        · simp at hbody
        · rename_i st1 hb
          simp only [Option.some.injEq, Prod.mk.injEq] at hbody
          obtain ⟨e1, e2, _, _⟩ := hbody
          obtain ⟨_, _, _, t1, t2, t3, _⟩ := backup_value_spec fuel d.st _ _ _ _ st1 hb
          have tside := backup_value_newNodeSideToMove fuel d.st _ _ _ _ st1 hb
          refine ⟨?_, Or.inl ?_⟩
          · rw [← e1, t1, t2, t3, tside, s1, s2, s3, hside]
            exact ⟨rfl, rfl, rfl, rfl⟩
          · rw [← e1, ← e2, t1, t2, t3, tside, s1, s2, s3, hside]
            exact ⟨rfl, rfl, rfl, rfl, rfl⟩
    · split at hbody
      · simp only [Option.some.injEq, Prod.mk.injEq] at hbody
        obtain ⟨e1, e2, _, _⟩ := hbody
        refine ⟨?_, Or.inr (Or.inl ?_)⟩
        · rw [← e1]
          refine ⟨?_, ?_, ?_, ?_⟩
          · show d.st.newNodes.capacity = _
            rw [s1]
          · show d.st.newNodeSideToMove.capacity = _
            rw [hside]
          · show d.st.transpositionNodes.capacity = _
            rw [s2]
          · show d.st.collisionNodes.capacity = _
            rw [s3]
        · rw [← e1, ← e2]
          refine ⟨rfl, ?_, ?_, ?_,
            ⟨(d.st.nodes d.parentNode).get_child_node d.childIdx, ?_⟩, n2⟩
          · show d.st.newNodes.data = _
            rw [s1]
          · show d.st.newNodeSideToMove.data = _
            rw [hside]
          · show d.st.transpositionNodes.data = _
            rw [s2]
          · show d.st.collisionNodes.data ++ [_] = _
            rw [s3]
      · simp only [Option.some.injEq, Prod.mk.injEq] at hbody
        obtain ⟨e1, e2, _, _⟩ := hbody
        have hcapn := add_new_node_to_tree_capacity env settings d.st d.pos d.parentNode
          d.childIdx d.inCheck
        refine ⟨?_, ?_⟩
        · rw [← e1, hcapn.1, hcapn.2.1, hcapn.2.2.1, hcapn.2.2.2, s1, s2, s3, hside]
          exact ⟨rfl, rfl, rfl, rfl⟩
        · rcases add_new_node_to_tree_cases env settings d.st d.pos d.parentNode d.childIdx
            d.inCheck with ⟨it, _, _, _, h⟩ | ⟨_, h⟩
          · right; right; left
            obtain ⟨f1, f2, f3, f4, _⟩ := add_transposition_node_fields d.st it d.parentNode
              d.childIdx
            rw [← e1, ← e2, h, f1, f2, f3, f4, s1, s2, s3, hside]
            exact ⟨rfl, rfl, rfl, ⟨_, rfl⟩, rfl, n3⟩
          · right; right; right
            obtain ⟨f1, f2, f3, f4, _⟩ := add_fresh_node_fields env settings d.st d.pos
              d.parentNode d.childIdx d.inCheck
            rw [← e1, ← e2, h, f1, f2, f3, f4, s1, s2, s3, hside]
            exact ⟨rfl, ⟨_, rfl⟩, ⟨_, rfl⟩, rfl, rfl, n1, n4⟩

theorem oneOutcome_invariant (settings : SearchSettings) (a b : SearchThread × Nat)
    (hcap : ConstructedCapacities settings a.1) (hin : BuffersWithin settings a.1)
    (h : OneOutcome a b) :
    ConstructedCapacities settings b.1 ∧ BuffersWithin settings b.1 := by
  obtain ⟨⟨k1, k2, k3, k4⟩, hcases⟩ := h
  obtain ⟨c1, c2, c3, c4⟩ := hcap
  obtain ⟨w1, w2, w3, w4⟩ := hin
  refine ⟨⟨by rw [k1, c1], by rw [k2, c2], by rw [k3, c3], by rw [k4, c4]⟩, ?_⟩
  unfold BuffersWithin FixedVector.size at *
  rcases hcases with ⟨_, d1, d2, d3, d4⟩ | ⟨_, d1, d2, d3, ⟨x, d4⟩, l⟩ |
    ⟨_, d1, d2, ⟨x, d3⟩, d4, l⟩ | ⟨_, ⟨x, d1⟩, ⟨c, d2⟩, d3, d4, l1, l2⟩
  · rw [d1, d2, d3, d4]; exact ⟨w1, w2, w3, w4⟩
  · rw [d1, d2, d3, d4]
    simp only [List.length_append, List.length_singleton]
    exact ⟨w1, by omega, w3, w4⟩
  · rw [d1, d2, d3, d4]
    simp only [List.length_append, List.length_singleton]
    exact ⟨w1, w2, by omega, w4⟩
  · rw [d1, d2, d3, d4]
    simp only [List.length_append, List.length_singleton]
    exact ⟨by omega, w2, w3, by omega⟩

theorem loopReaches_invariant (env : SearchEnv) (settings : SearchSettings) (fuel : Nat)
    (st : SearchThread) (hcap : ConstructedCapacities settings st)
    (hin : BuffersWithin settings st) (a : SearchThread × Nat)
    (h : LoopReaches env settings fuel st a) :
    ConstructedCapacities settings a.1 ∧ BuffersWithin settings a.1 := by
  unfold LoopReaches at h
  induction h with
  | refl => exact ⟨hcap, hin⟩
  | tail _ hstep ih =>
    exact oneOutcome_invariant settings _ _ ih.1 ih.2
      (create_mini_batch_body_outcome env settings fuel _ _ ih.1 ih.2 hstep)

theorem create_mini_batch_loop_reaches (env : SearchEnv) (settings : SearchSettings)
    (fuel : Nat) :
    ∀ (rounds : Nat) (a : SearchThread) (k : Nat) (desc : NodeDescription) (inCheck : Bool)
      (b : SearchThread),
      create_mini_batch_loop env settings fuel rounds a k desc inCheck = some b →
      ∃ k2, Relation.ReflTransGen (LoopStep env settings fuel) (a, k) (b, k2) ∧
        create_mini_batch_continues env b k2 = false := by
  intro rounds
  induction rounds with
  | zero => intro a k desc inCheck b h; simp [create_mini_batch_loop] at h
  | succ r ih =>
    intro a k desc inCheck b h
    rw [create_mini_batch_loop_succ] at h
    split at h
    · rename_i hguard
      split at h
      · simp at h
      · rename_i next hbody
        obtain ⟨k2, r1, r2⟩ := ih _ _ _ _ _ h
        refine ⟨k2, Relation.ReflTransGen.head ?_ r1, r2⟩
        exact ⟨hguard, desc, inCheck, next.2.2.1, next.2.2.2, hbody⟩
    · rename_i hguard
      simp only [Option.some.injEq] at h
      subst h
      exact ⟨k, Relation.ReflTransGen.refl, by simpa using hguard⟩

/-- Claim C13. Buffer invariant of `create_mini_batch`. A freshly constructed thread has
empty buffers of capacities `batchSize`, `batchSize`, `2 * batchSize` and `batchSize`. When
the loop is entered with buffers of these capacities that are within their bounds, with as
many elements in `newNodeSideToMove` as in `newNodes`, then in every state the loop passes
through the bounds hold (`|newNodes| ≤ batchSize`, `|collisionNodes| ≤ batchSize`,
`|transpositionNodes| ≤ 2 * batchSize`, `|newNodes| = |newNodeSideToMove|`), and every round
from such a state either increments the terminal counter by one and leaves the buffers
alone, or appends exactly one element to exactly one of `collisionNodes`,
`transpositionNodes` and `newNodes`, in the last case together with one element of
`newNodeSideToMove`, the buffer that grows not being full. The state that
`create_mini_batch` returns is one of these states, the loop condition being false there. -/
theorem create_mini_batch_buffers (env : SearchEnv) (settings : SearchSettings) (fuel : Nat)
    (st : SearchThread) (hcap : ConstructedCapacities settings st)
    (hin : BuffersWithin settings st) :
    (∀ a, LoopReaches env settings fuel st a →
      BuffersWithin settings a.1 ∧ ConstructedCapacities settings a.1 ∧
      ∀ b, LoopStep env settings fuel a b → OneOutcome a b) ∧
    (∀ description inCheck b,
      create_mini_batch env settings fuel st description inCheck = some b →
      BuffersWithin settings b ∧
      ∃ k, LoopReaches env settings fuel st (b, k) ∧
        create_mini_batch_continues env b k = false) ∧
    (∀ nodes nbNodes hashTable rootNode rootPos inputPlanes valueOutputs probOutputs tbHits,
      ConstructedCapacities settings (create settings nodes nbNodes hashTable rootNode rootPos
        inputPlanes valueOutputs probOutputs tbHits) ∧
      BuffersWithin settings (create settings nodes nbNodes hashTable rootNode rootPos
        inputPlanes valueOutputs probOutputs tbHits)) := by
  refine ⟨?_, ?_, ?_⟩
  · intro a ha
    obtain ⟨i1, i2⟩ := loopReaches_invariant env settings fuel st hcap hin a ha
    exact ⟨i2, i1, fun b hb => create_mini_batch_body_outcome env settings fuel a b i1 i2 hb⟩
  · intro description inCheck b h
    obtain ⟨k, r1, r2⟩ := create_mini_batch_loop_reaches env settings fuel fuel st 0
      description inCheck b h
    exact ⟨(loopReaches_invariant env settings fuel st hcap hin (b, k) r1).2, k, r1, r2⟩
  · intro nodes nbNodes hashTable rootNode rootPos inputPlanes valueOutputs probOutputs tbHits
    refine ⟨⟨rfl, rfl, rfl, rfl⟩, ?_⟩
    simp [BuffersWithin, create, FixedVector.size]

/-- Instance of claim C13: on the example thread with batch size 2 the loop makes an
expansion and two collisions and stops with `collisionNodes` full; the state returned holds
one new node with its side to move, no transposition node and two collision nodes, within
the bounds. -/
theorem create_mini_batch_buffers_witness :
    ConstructedCapacities Example.settings Example.thread ∧
    BuffersWithin Example.settings Example.thread ∧
    ∃ b, create_mini_batch Example.env Example.settings 10 Example.thread
        ⟨0, false, false⟩ false = some b ∧
      (b.newNodes.size, b.newNodeSideToMove.size, b.transpositionNodes.size,
        b.collisionNodes.size) = (1, 1, 0, 2) ∧
      BuffersWithin Example.settings b ∧
      ∃ k, LoopReaches Example.env Example.settings 10 Example.thread (b, k) ∧
        create_mini_batch_continues Example.env b k = false := by
  have hcap : ConstructedCapacities Example.settings Example.thread := ⟨rfl, rfl, rfl, rfl⟩
  have hin : BuffersWithin Example.settings Example.thread := by
    unfold BuffersWithin; decide
  refine ⟨hcap, hin, ?_⟩
  have hv : (create_mini_batch Example.env Example.settings 10 Example.thread
      ⟨0, false, false⟩ false).map
      (fun b => (b.newNodes.size, b.newNodeSideToMove.size, b.transpositionNodes.size,
        b.collisionNodes.size)) = some (1, 1, 0, 2) := by decide
  cases hb : create_mini_batch Example.env Example.settings 10 Example.thread
      ⟨0, false, false⟩ false with
  | none => rw [hb] at hv; simp at hv
  | some b =>
    rw [hb] at hv
    simp only [Option.map_some', Option.some.injEq] at hv
    obtain ⟨r1, r2⟩ := (create_mini_batch_buffers Example.env Example.settings 10 Example.thread
      hcap hin).2.1 ⟨0, false, false⟩ false b hb
    exact ⟨b, rfl, hv, r1, r2⟩

/-! ## Net effect of a descent and its value backup -/

end SearchThread

end CrazyAra
